import Mathlib

/-!
# Transport parameters without magnetic field: `Weight.C`

A shallow embedding of `main` of `Transport parameter without B/Weight.C`.

The program asks a gas object of the Garfield++ library for its electric-field grid,
loops over the grid indices pulling five table entries per index, rescales one of them,
exponentiates two of them, stores the five results in five vectors, prints one console
line per index, builds five graphs, saves five images and writes a CSV file.

What is taken as a parameter, because it is not code of this repository:

* `Arith D`: the carrier `D` of C++ `double`, the three literals used, the product `*`,
  `exp` of `<cmath>` and the text that `operator<<` produces for a `double`;
* `MediumMagboltz G D`: the six member functions of the library class that `main` calls
  from line 47 on, as state-passing functions on the state `G` of the gas object. An
  argument passed by reference is an argument and a component of the result.

Vectors are lists, `push_back` appends at the end, an indexed read outside the vector has
no result (`none`), also the read `v[0]` inside `&v[0]`; streams are lists of characters,
loops carry fuel. The program is cut in three parts, `retrieve` (lines 43 to 82), `plots`
(lines 85 to 123) and `writeCsv` (lines 126 to 131), and `main` runs them in this order.
-/

namespace Weight

/-! ## The parameters -/

/-- Arithmetic and formatting of C++ `double`, as far as `main` uses them. -/
structure Arith (D : Type) where
  /-- The literal `0.` (also the `0` of `bfields = {0}`). -/
  zero : D
  /-- The literal `90.`. -/
  ninety : D
  /-- The literal `1.e3`. -/
  e3 : D
  /-- The product of two doubles. -/
  mul : D → D → D
  /-- The function `exp` of `<cmath>`. -/
  exp : D → D
  /-- The characters `operator<<` inserts for a double on a stream in its default state. -/
  fmt : D → List Char

/-- The member functions of `Garfield::MediumMagboltz` called on `gas` from line 47 on.
`G` is the state of the object; a function takes the state first and returns the new state
first. A getter `f g ie ib ia v` receives the three table indices and the current value `v`
of the variable passed by reference, and returns the value of that variable after the call
(its `bool` result is dropped by `main`). -/
structure MediumMagboltz (G D : Type) where
  GetFieldGrid : G → List D → List D → List D → G × List D × List D × List D
  GetElectronVelocityE : G → Nat → Nat → Nat → D → G × D
  GetElectronLongitudinalDiffusion : G → Nat → Nat → Nat → D → G × D
  GetElectronTransverseDiffusion : G → Nat → Nat → Nat → D → G × D
  GetElectronTownsend : G → Nat → Nat → Nat → D → G × D
  GetElectronAttachment : G → Nat → Nat → Nat → D → G × D

/-- The five table getters that the retrieval loop calls. -/
inductive Getter where
  | ElectronVelocityE
  | ElectronLongitudinalDiffusion
  | ElectronTransverseDiffusion
  | ElectronTownsend
  | ElectronAttachment
  deriving DecidableEq, Repr

/-- One table lookup as `main` makes it: which getter, the state of the gas object when
the call is made, the three indices and the value of the by-reference variable passed in. -/
structure Lookup (G D : Type) where
  getter : Getter
  gas : G
  ie : Nat
  ib : Nat
  ia : Nat
  arg : D

/-- The library run on a lookup: new state of the gas object and the value it leaves in the
by-reference variable. -/
def MediumMagboltz.run {G D : Type} (M : MediumMagboltz G D) (c : Lookup G D) : G × D :=
  match c.getter with
  | .ElectronVelocityE => M.GetElectronVelocityE c.gas c.ie c.ib c.ia c.arg
  | .ElectronLongitudinalDiffusion => M.GetElectronLongitudinalDiffusion c.gas c.ie c.ib c.ia c.arg
  | .ElectronTransverseDiffusion => M.GetElectronTransverseDiffusion c.gas c.ie c.ib c.ia c.arg
  | .ElectronTownsend => M.GetElectronTownsend c.gas c.ie c.ib c.ia c.arg
  | .ElectronAttachment => M.GetElectronAttachment c.gas c.ie c.ib c.ia c.arg

/-- The value the library returned for a lookup. -/
def MediumMagboltz.value {G D : Type} (M : MediumMagboltz G D) (c : Lookup G D) : D :=
  (M.run c).2

/-! ## The program -/

/-- A counted loop `for (size_t i = i0; i < n; ++i) body`: the condition is tested before
every iteration, the body may fail, and the counter is returned with the final state. With
no fuel left there is no result. -/
def forLoop {σ : Type} (n : Nat) (body : Nat → σ → Option σ) :
    Nat → Nat → σ → Option (Nat × σ)
  | 0, _, _ => none
  | fuel + 1, i, s =>
    if i < n then
      match body i s with
      | none => none
      | some s1 => forLoop n body fuel (i + 1) s1
    else some (i, s)

/-- What the retrieval loop (lines 58 to 82) reads and writes: the gas object, the five
result vectors and the characters `main` has inserted into `std::cout`; `lookups` is the
record of the table lookups made so far, in the order they were made. -/
structure Retrieval (G D : Type) where
  gas : G
  lookups : List (Lookup G D)
  driftVelocities : List D
  townsendCoeffs : List D
  attachmentCoeffs : List D
  longitudinalDiffusions : List D
  transverseDiffusions : List D
  cout : List Char

/-- The text of the console line of line 81 for six values. -/
def consoleLine {D : Type} (A : Arith D) (e ve alpha eta dl dt : D) : List Char :=
  "E_Field: ".toList ++ A.fmt e ++ " V/cm, Drift_Velocity: ".toList ++ A.fmt ve
    ++ " cm/μs, Townsend_Coeff: ".toList ++ A.fmt alpha
    ++ " 1/cm, Attachment_Coeff: ".toList ++ A.fmt eta
    ++ " √cm, Longitudinal_Diffusion: ".toList ++ A.fmt dl
    ++ " √cm, Transverse_Diffusion: ".toList ++ A.fmt dt ++ " √cm\n".toList

/-- The body of the retrieval loop, lines 59 to 81, for the index `i`: the five getters are
called in program order, each on the gas object as the previous call left it and on a
variable initialised to `0.`; the drift velocity is multiplied by `1.e3`, the Townsend and
the attachment value are replaced by their `exp`; the five results are appended to the five
vectors; the line is printed, which reads `efields[i]`. -/
def retrieveBody {G D : Type} (A : Arith D) (M : MediumMagboltz G D) (efields : List D)
    (i : Nat) (s : Retrieval G D) : Option (Retrieval G D) :=
  let r1 := M.GetElectronVelocityE s.gas i 0 0 A.zero
  let r2 := M.GetElectronLongitudinalDiffusion r1.1 i 0 0 A.zero
  let r3 := M.GetElectronTransverseDiffusion r2.1 i 0 0 A.zero
  let r4 := M.GetElectronTownsend r3.1 i 0 0 A.zero
  let r5 := M.GetElectronAttachment r4.1 i 0 0 A.zero
  let ve := A.mul r1.2 A.e3
  let dl := r2.2
  let dt := r3.2
  let alpha := A.exp r4.2
  let eta := A.exp r5.2
  match efields[i]? with
  | none => none
  | some e =>
    some
      { gas := r5.1
        lookups := s.lookups ++
          [⟨.ElectronVelocityE, s.gas, i, 0, 0, A.zero⟩,
            ⟨.ElectronLongitudinalDiffusion, r1.1, i, 0, 0, A.zero⟩,
            ⟨.ElectronTransverseDiffusion, r2.1, i, 0, 0, A.zero⟩,
            ⟨.ElectronTownsend, r3.1, i, 0, 0, A.zero⟩,
            ⟨.ElectronAttachment, r4.1, i, 0, 0, A.zero⟩]
        driftVelocities := s.driftVelocities ++ [ve]
        townsendCoeffs := s.townsendCoeffs ++ [alpha]
        attachmentCoeffs := s.attachmentCoeffs ++ [eta]
        longitudinalDiffusions := s.longitudinalDiffusions ++ [dl]
        transverseDiffusions := s.transverseDiffusions ++ [dt]
        cout := s.cout ++ consoleLine A e ve alpha eta dl dt }

/-- The line colours of ROOT that `main` uses. -/
inductive Color where
  | kRed
  | kBlue
  | kGreen
  | kMagenta
  | kOrange
  deriving DecidableEq, Repr

/-- A graph as `main` constructs and styles it: the arguments of `new TGraph(n, x, y)`
(the value of the count expression and the two arrays that the pointers `&x[0]` and `&y[0]`
point to the start of), the title, the line colour and the line width. -/
structure TGraph (D : Type) where
  n : Nat
  x : List D
  y : List D
  title : String
  lineColor : Color
  lineWidth : Nat

/-- The points of a graph: the first `n` entries of the x array paired with the first `n`
entries of the y array. There is no result when an array has fewer than `n` entries. -/
def TGraph.points {D : Type} (g : TGraph D) : Option (List (D × D)) :=
  if g.n ≤ g.x.length ∧ g.n ≤ g.y.length then some ((g.x.take g.n).zip (g.y.take g.n))
  else none

/-- One image written by `main`: the canvas (name, title, width, height), the graph drawn
on it with its draw option, and the file name given to `SaveAs`. -/
structure Image (D : Type) where
  canvas : String
  canvasTitle : String
  width : Nat
  height : Nat
  graph : TGraph D
  drawOption : String
  file : String

/-- The expression `&v[0]` of lines 86 to 118: `operator[]` reads the vector at index 0 and
the address of that entry is the array from its first entry on. On an empty vector the read
is out of bounds and there is no result. -/
def addressOfFirst {D : Type} (v : List D) : Option (List D) :=
  match v[0]? with
  | none => none
  | some _ => some v

/-- Lines 85 to 123: the five canvases, graphs and `SaveAs` calls, in program order. Every
graph is constructed from `nE`, `&efields[0]` and `&<vector>[0]`; when one of these reads is
out of bounds there is no result. -/
def plots {D : Type} (nE : Nat)
    (efields driftVelocities townsendCoeffs attachmentCoeffs longitudinalDiffusions
      transverseDiffusions : List D) : Option (List (Image D)) := do
  let x1 ← addressOfFirst efields
  let y1 ← addressOfFirst driftVelocities
  let c1 : Image D :=
    { canvas := "c1", canvasTitle := "Transport Parameters", width := 800, height := 600
      graph :=
        { n := nE, x := x1, y := y1
          title := "Drift Velocity;Electric Field [V/cm];Velocity [cm/us]"
          lineColor := .kRed, lineWidth := 2 }
      drawOption := "AL", file := "DriftVelocity.png" }
  let x2 ← addressOfFirst efields
  let y2 ← addressOfFirst townsendCoeffs
  let c2 : Image D :=
    { canvas := "c2", canvasTitle := "Townsend Coefficient", width := 800, height := 600
      graph :=
        { n := nE, x := x2, y := y2
          title := "Townsend Coefficient;Electric Field [V/cm];Coefficient [1/cm]"
          lineColor := .kBlue, lineWidth := 2 }
      drawOption := "AL", file := "TownsendCoefficient.png" }
  let x3 ← addressOfFirst efields
  let y3 ← addressOfFirst attachmentCoeffs
  let c3 : Image D :=
    { canvas := "c3", canvasTitle := "Attachment Coefficient", width := 800, height := 600
      graph :=
        { n := nE, x := x3, y := y3
          title := "Attachment Coefficient;Electric Field [V/cm];Coefficient [1/cm]"
          lineColor := .kGreen, lineWidth := 2 }
      drawOption := "AL", file := "AttachmentCoefficient.png" }
  let x4 ← addressOfFirst efields
  let y4 ← addressOfFirst longitudinalDiffusions
  let c4 : Image D :=
    { canvas := "c4", canvasTitle := "Longitudinal Diffusion", width := 800, height := 600
      graph :=
        { n := nE, x := x4, y := y4
          title := "Longitudinal Diffusion;Electric Field [V/cm];Diffusion [√cm]"
          lineColor := .kMagenta, lineWidth := 2 }
      drawOption := "AL", file := "LongitudinalDiffusion.png" }
  let x5 ← addressOfFirst efields
  let y5 ← addressOfFirst transverseDiffusions
  let c5 : Image D :=
    { canvas := "c5", canvasTitle := "Transverse Diffusion", width := 800, height := 600
      graph :=
        { n := nE, x := x5, y := y5
          title := "Transverse Diffusion;Electric Field [V/cm];Diffusion [√cm]"
          lineColor := .kOrange, lineWidth := 2 }
      drawOption := "AL", file := "TransverseDiffusion.png" }
  pure [c1, c2, c3, c4, c5]

/-- The header line of the CSV file, line 127. -/
def csvHeader : List Char :=
  ("E_Field[V/cm],Drift_Velocity[cm/us],Townsend_Coeff[1/cm],Attachment_Coeff[1/cm],"
    ++ "Longitudinal_Diffusion[√cm],Transverse_Diffusion[√cm]\n").toList

/-- The text of one data row of the CSV file, line 129, for six values. -/
def csvRow {D : Type} (A : Arith D) (e ve alpha eta dl dt : D) : List Char :=
  A.fmt e ++ ",".toList ++ A.fmt ve ++ ",".toList ++ A.fmt alpha ++ ",".toList ++ A.fmt eta
    ++ ",".toList ++ A.fmt dl ++ ",".toList ++ A.fmt dt ++ "\n".toList

/-- The body of the CSV loop, line 129, for the index `i`: six indexed reads, one row
appended to the file contents. -/
def csvBody {D : Type} (A : Arith D)
    (efields driftVelocities townsendCoeffs attachmentCoeffs longitudinalDiffusions
      transverseDiffusions : List D) (i : Nat) (outFile : List Char) : Option (List Char) :=
  match efields[i]?, driftVelocities[i]?, townsendCoeffs[i]?, attachmentCoeffs[i]?,
      longitudinalDiffusions[i]?, transverseDiffusions[i]? with
  | some e, some ve, some alpha, some eta, some dl, some dt =>
    some (outFile ++ csvRow A e ve alpha eta dl dt)
  | _, _, _, _, _, _ => none

/-- Everything `main` has produced when it reaches `app.Run()` on line 133. -/
structure Output (G D : Type) where
  /-- The field grid returned by `GetFieldGrid`. -/
  efields : List D
  /-- The state after the retrieval loop. -/
  retrieval : Retrieval G D
  /-- The value of the counter when the retrieval loop was left. -/
  retrievalCount : Nat
  /-- The images saved, in program order. -/
  images : List (Image D)
  /-- The contents written to `transport_parameters.csv`. -/
  csv : List Char
  /-- The value of the counter when the CSV loop was left. -/
  csvCount : Nat

/-- The field grid that `GetFieldGrid` on line 47 leaves in `efields`, called with the
empty `efields`, `bfields = {0}` and `angles = {90.}`. -/
def fieldGrid {G D : Type} (A : Arith D) (M : MediumMagboltz G D) (gas : G) : List D :=
  (M.GetFieldGrid gas [] [A.zero] [A.ninety]).2.1

/-- Lines 43 to 82 of `main`, run on a gas object in the state `gas` that lines 33 to 40
left it in: the field grid is fetched and the retrieval loop is run on five empty vectors.
The result is the value of the loop counter when the loop is left and the state then. The
loop gets `fuel` tests of its condition. -/
def retrieve {G D : Type} (A : Arith D) (M : MediumMagboltz G D) (gas : G) (fuel : Nat) :
    Option (Nat × Retrieval G D) :=
  let efields := fieldGrid A M gas
  let nE := efields.length
  forLoop nE (retrieveBody A M efields) fuel 0
    { gas := (M.GetFieldGrid gas [] [A.zero] [A.ninety]).1, lookups := []
      driftVelocities := [], townsendCoeffs := [], attachmentCoeffs := []
      longitudinalDiffusions := [], transverseDiffusions := [], cout := [] }

/-- Lines 126 to 131 of `main`: the header is written and the CSV loop is run on `efields`
and the five vectors of the state `s`. The result is the value of the loop counter when the
loop is left and the contents of the file. The loop gets `fuel` tests of its condition. -/
def writeCsv {G D : Type} (A : Arith D) (efields : List D) (s : Retrieval G D)
    (fuel : Nat) : Option (Nat × List Char) :=
  forLoop efields.length
    (csvBody A efields s.driftVelocities s.townsendCoeffs s.attachmentCoeffs
      s.longitudinalDiffusions s.transverseDiffusions) fuel 0 csvHeader

/-- The function `main` of `Weight.C` from line 43 to line 131, run on a gas object in the
state `gas` that lines 33 to 40 left it in: the retrieval, then the plots, then the CSV
file. There is no result when a part has none. -/
def main {G D : Type} (A : Arith D) (M : MediumMagboltz G D) (gas : G) (fuel : Nat) :
    Option (Output G D) :=
  let efields := fieldGrid A M gas
  let nE := efields.length
  match retrieve A M gas fuel with
  | none => none
  | some (i, s) =>
    match plots nE efields s.driftVelocities s.townsendCoeffs s.attachmentCoeffs
        s.longitudinalDiffusions s.transverseDiffusions with
    | none => none
    | some images =>
      match writeCsv A efields s fuel with
      | none => none
      | some (k, outFile) =>
        some
          { efields := efields, retrieval := s, retrievalCount := i, images := images
            csv := outFile, csvCount := k }

/-! ## A concrete arithmetic and a concrete library, for evaluation -/

/-- Decimal digits of a natural number, most significant first, by repeated division;
`fuel` bounds the number of digits. -/
def digits : Nat → Nat → List Char
  | 0, _ => []
  | fuel + 1, n =>
    if n < 10 then [Nat.digitChar n] else digits fuel (n / 10) ++ [Nat.digitChar (n % 10)]

/-- Text of a rational: sign, numerator, and the denominator after a slash when it is not
1. -/
def fmtRat (q : ℚ) : List Char :=
  (if q.num < 0 then ['-'] else []) ++ digits (q.num.natAbs + 1) q.num.natAbs
    ++ (if q.den = 1 then [] else '/' :: digits (q.den + 1) q.den)

/-- Taylor polynomial of degree 8 of the exponential at 0. -/
def expTaylor (x : ℚ) : ℚ :=
  ((List.range 9).map (fun k => x ^ k / (k.factorial : ℚ))).sum

/-- A stand-in for `exp` on `double`: the result is 0 for arguments of -746 and below,
where `exp` on `double` underflows to 0 (the least positive `double` is `2^-1074` and
`exp(-746) < 2^-1075`); above, the Taylor polynomial for a non-negative argument and its
reciprocal at the opposite argument for a negative one. At 0 the result is 1. -/
def expUnderflow (x : ℚ) : ℚ :=
  if x ≤ -746 then 0 else if x < 0 then 1 / expTaylor (-x) else expTaylor x

/-- Rational arithmetic standing in for `double`: products are not rounded, the
exponential is `expUnderflow`, so `exp 0 = 1` and `exp (-1000) = 0` as for `double`. -/
def ratArith : Arith ℚ :=
  { zero := 0, ninety := 90, e3 := 1000, mul := fun a b => a * b, exp := expUnderflow
    fmt := fmtRat }

/-- A gas object whose state is its table: a field grid and, per grid index, the five
entries (drift velocity along E, longitudinal diffusion, transverse diffusion, logarithm
of the Townsend coefficient, logarithm of the attachment coefficient). -/
structure Table where
  efields : List ℚ
  velocityE : List ℚ
  longitudinalDiffusion : List ℚ
  transverseDiffusion : List ℚ
  townsend : List ℚ
  attachment : List ℚ

/-- A table getter: the entry at `ie` when all three indices are in range (one magnetic
field, one angle), else the variable is left as it was. The table is not changed. -/
def Table.entry (t : Table) (tab : List ℚ) (ie ib ia : Nat) (v : ℚ) : Table × ℚ :=
  if ib = 0 ∧ ia = 0 then (t, (tab[ie]?).getD v) else (t, v)

/-- The library over tables. -/
def tableMedium : MediumMagboltz Table ℚ :=
  { GetFieldGrid := fun t _ bfields angles => (t, t.efields, bfields, angles)
    GetElectronVelocityE := fun t => t.entry t.velocityE
    GetElectronLongitudinalDiffusion := fun t => t.entry t.longitudinalDiffusion
    GetElectronTransverseDiffusion := fun t => t.entry t.transverseDiffusion
    GetElectronTownsend := fun t => t.entry t.townsend
    GetElectronAttachment := fun t => t.entry t.attachment }

/-- A table with two field points; the second has no Townsend and no attachment entry. -/
def sampleTable : Table :=
  { efields := [100, 200]
    velocityE := [1, 2]
    longitudinalDiffusion := [3, 4]
    transverseDiffusion := [5, 6]
    townsend := [0]
    attachment := [0] }

/-- A table with no field point. -/
def emptyTable : Table :=
  { efields := [], velocityE := [], longitudinalDiffusion := [], transverseDiffusion := []
    townsend := [], attachment := [] }

/-! ## The record of one iteration, used to state the loop invariants -/

/-- What one iteration of the retrieval loop read: the field value and the five lookups. -/
structure Iteration (G D : Type) where
  e : D
  c1 : Lookup G D
  c2 : Lookup G D
  c3 : Lookup G D
  c4 : Lookup G D
  c5 : Lookup G D

/-- The five lookups of an iteration, in the order they are made. -/
def Iteration.lookups {G D : Type} (r : Iteration G D) : List (Lookup G D) :=
  [r.c1, r.c2, r.c3, r.c4, r.c5]

/-- The record of the iteration with index `i` started with the gas object in state `g`,
where `e` is the field value read. -/
def Iteration.run {G D : Type} (A : Arith D) (M : MediumMagboltz G D) (e : D) (g : G)
    (i : Nat) : Iteration G D :=
  let c1 : Lookup G D := ⟨.ElectronVelocityE, g, i, 0, 0, A.zero⟩
  let c2 : Lookup G D := ⟨.ElectronLongitudinalDiffusion, (M.run c1).1, i, 0, 0, A.zero⟩
  let c3 : Lookup G D := ⟨.ElectronTransverseDiffusion, (M.run c2).1, i, 0, 0, A.zero⟩
  let c4 : Lookup G D := ⟨.ElectronTownsend, (M.run c3).1, i, 0, 0, A.zero⟩
  let c5 : Lookup G D := ⟨.ElectronAttachment, (M.run c4).1, i, 0, 0, A.zero⟩
  ⟨e, c1, c2, c3, c4, c5⟩

/-- The drift velocity an iteration stores. -/
def Iteration.ve {G D : Type} (A : Arith D) (M : MediumMagboltz G D) (r : Iteration G D) : D :=
  A.mul (M.value r.c1) A.e3

/-- The longitudinal diffusion an iteration stores. -/
def Iteration.dl {G D : Type} (M : MediumMagboltz G D) (r : Iteration G D) : D :=
  M.value r.c2

/-- The transverse diffusion an iteration stores. -/
def Iteration.dt {G D : Type} (M : MediumMagboltz G D) (r : Iteration G D) : D :=
  M.value r.c3

/-- The Townsend coefficient an iteration stores. -/
def Iteration.alpha {G D : Type} (A : Arith D) (M : MediumMagboltz G D) (r : Iteration G D) :
    D :=
  A.exp (M.value r.c4)

/-- The attachment coefficient an iteration stores. -/
def Iteration.eta {G D : Type} (A : Arith D) (M : MediumMagboltz G D) (r : Iteration G D) :
    D :=
  A.exp (M.value r.c5)

/-- The record `r` is the record of the iteration with index `j`: the field value is
`efields[j]`, the lookups are the five getters at `(j, 0, 0)` on a variable holding `0.`,
each run in the state the previous one left. -/
def Iteration.At {G D : Type} (A : Arith D) (M : MediumMagboltz G D) (efields : List D)
    (j : Nat) (r : Iteration G D) : Prop :=
  efields[j]? = some r.e ∧
  r.c1 = ⟨.ElectronVelocityE, r.c1.gas, j, 0, 0, A.zero⟩ ∧
  r.c2 = ⟨.ElectronLongitudinalDiffusion, (M.run r.c1).1, j, 0, 0, A.zero⟩ ∧
  r.c3 = ⟨.ElectronTransverseDiffusion, (M.run r.c2).1, j, 0, 0, A.zero⟩ ∧
  r.c4 = ⟨.ElectronTownsend, (M.run r.c3).1, j, 0, 0, A.zero⟩ ∧
  r.c5 = ⟨.ElectronAttachment, (M.run r.c4).1, j, 0, 0, A.zero⟩

/-- Invariant of the retrieval loop: the state is the image of a list of iteration
records, one per index below `i`. -/
def Retrieval.Built {G D : Type} (A : Arith D) (M : MediumMagboltz G D) (efields : List D)
    (recs : List (Iteration G D)) (s : Retrieval G D) : Prop :=
  (∀ (j : Nat) (r : Iteration G D), recs[j]? = some r → r.At A M efields j) ∧
  s.lookups = recs.flatMap Iteration.lookups ∧
  s.driftVelocities = recs.map (Iteration.ve A M) ∧
  s.townsendCoeffs = recs.map (Iteration.alpha A M) ∧
  s.attachmentCoeffs = recs.map (Iteration.eta A M) ∧
  s.longitudinalDiffusions = recs.map (Iteration.dl M) ∧
  s.transverseDiffusions = recs.map (Iteration.dt M) ∧
  s.cout = recs.flatMap
    (fun r => consoleLine A r.e (r.ve A M) (r.alpha A M) (r.eta A M) (r.dl M) (r.dt M))

/-- In the record `lookups` of the lookups made, `c` is the lookup of the getter `g` at the
field index `i`: it was made, with that getter, with the indices `(i, 0, 0)` and with a
variable holding `0.`, and it is the only recorded lookup of `g` with field index `i`. -/
def IsLookup {G D : Type} (A : Arith D) (lookups : List (Lookup G D)) (g : Getter) (i : Nat)
    (c : Lookup G D) : Prop :=
  c ∈ lookups ∧ c.getter = g ∧ c.ie = i ∧ c.ib = 0 ∧ c.ia = 0 ∧ c.arg = A.zero ∧
    ∀ c1 ∈ lookups, c1.getter = g → c1.ie = i → c1 = c

/-- The lookups `cs` are an execution of the library from the state `g` to the state `g1`:
the first is run on `g`, each next one on the state the previous one left, and the last
one leaves `g1`. -/
def Chained {G D : Type} (M : MediumMagboltz G D) : G → List (Lookup G D) → G → Prop
  | g, [], g1 => g1 = g
  | g, c :: cs, g1 => c.gas = g ∧ Chained M (M.run c).1 cs g1

/-- The vector in which the retrieval loop stores the output pulled with a getter. -/
def Retrieval.stored {G D : Type} (s : Retrieval G D) : Getter → List D
  | .ElectronVelocityE => s.driftVelocities
  | .ElectronLongitudinalDiffusion => s.longitudinalDiffusions
  | .ElectronTransverseDiffusion => s.transverseDiffusions
  | .ElectronTownsend => s.townsendCoeffs
  | .ElectronAttachment => s.attachmentCoeffs

/-- The value the library returned for the first recorded lookup of the getter `g` at the
field index `i`, if there is one. -/
def Retrieval.returned {G D : Type} (M : MediumMagboltz G D) (s : Retrieval G D) (g : Getter)
    (i : Nat) : Option D :=
  (s.lookups.find? (fun c => decide (c.getter = g ∧ c.ie = i))).map M.value

/-- The outputs that are transformed at the field index `i`: the getters whose stored entry
at `i` is not the value the library returned for their lookup at `i`. -/
def Retrieval.transformedAt {G D : Type} [DecidableEq D] (M : MediumMagboltz G D)
    (s : Retrieval G D) (i : Nat) : List Getter :=
  [Getter.ElectronVelocityE, .ElectronLongitudinalDiffusion, .ElectronTransverseDiffusion,
    .ElectronTownsend, .ElectronAttachment].filter
    (fun g => decide ((s.stored g)[i]? ≠ s.returned M g i))

/-- The five images that `plots` returns when no read is out of bounds: the graphs have
the count `nE`, the x array `efields` and the five vectors as y arrays. -/
def imagesOf {D : Type} (nE : Nat)
    (efields driftVelocities townsendCoeffs attachmentCoeffs longitudinalDiffusions
      transverseDiffusions : List D) : List (Image D) :=
  [ { canvas := "c1", canvasTitle := "Transport Parameters", width := 800, height := 600
      graph :=
        { n := nE, x := efields, y := driftVelocities
          title := "Drift Velocity;Electric Field [V/cm];Velocity [cm/us]"
          lineColor := .kRed, lineWidth := 2 }
      drawOption := "AL", file := "DriftVelocity.png" },
    { canvas := "c2", canvasTitle := "Townsend Coefficient", width := 800, height := 600
      graph :=
        { n := nE, x := efields, y := townsendCoeffs
          title := "Townsend Coefficient;Electric Field [V/cm];Coefficient [1/cm]"
          lineColor := .kBlue, lineWidth := 2 }
      drawOption := "AL", file := "TownsendCoefficient.png" },
    { canvas := "c3", canvasTitle := "Attachment Coefficient", width := 800, height := 600
      graph :=
        { n := nE, x := efields, y := attachmentCoeffs
          title := "Attachment Coefficient;Electric Field [V/cm];Coefficient [1/cm]"
          lineColor := .kGreen, lineWidth := 2 }
      drawOption := "AL", file := "AttachmentCoefficient.png" },
    { canvas := "c4", canvasTitle := "Longitudinal Diffusion", width := 800, height := 600
      graph :=
        { n := nE, x := efields, y := longitudinalDiffusions
          title := "Longitudinal Diffusion;Electric Field [V/cm];Diffusion [√cm]"
          lineColor := .kMagenta, lineWidth := 2 }
      drawOption := "AL", file := "LongitudinalDiffusion.png" },
    { canvas := "c5", canvasTitle := "Transverse Diffusion", width := 800, height := 600
      graph :=
        { n := nE, x := efields, y := transverseDiffusions
          title := "Transverse Diffusion;Electric Field [V/cm];Diffusion [√cm]"
          lineColor := .kOrange, lineWidth := 2 }
      drawOption := "AL", file := "TransverseDiffusion.png" } ]

/-- What identifies a lookup in the sweep: the getter and the three indices. -/
def Lookup.key {G D : Type} (c : Lookup G D) : Getter × Nat × Nat × Nat :=
  (c.getter, c.ie, c.ib, c.ia)

/-- The five lookups of the loop body for the field index `i`, in program order (lines 61
to 65): every getter at electric-field index `i`, magnetic-field index 0, angle index 0. -/
def sweepKeys (i : Nat) : List (Getter × Nat × Nat × Nat) :=
  [(.ElectronVelocityE, i, 0, 0), (.ElectronLongitudinalDiffusion, i, 0, 0),
    (.ElectronTransverseDiffusion, i, 0, 0), (.ElectronTownsend, i, 0, 0),
    (.ElectronAttachment, i, 0, 0)]

end Weight

namespace Weight

/-! ## Loops -/

/-- Invariant rule for `forLoop`: when the body succeeds and re-establishes the invariant at
every index below `n`, the loop started at `i ≤ n` with more fuel than iterations left
returns, with the counter at `n` and the invariant holding there. -/
theorem forLoop_inv {σ : Type} (n : Nat) (body : Nat → σ → Option σ)
    (Inv : Nat → σ → Prop)
    (hstep : ∀ i s, i < n → Inv i s → ∃ s1, body i s = some s1 ∧ Inv (i + 1) s1) :
    ∀ (fuel i : Nat) (s : σ), i ≤ n → n - i < fuel → Inv i s →
      ∃ s1, forLoop n body fuel i s = some (n, s1) ∧ Inv n s1 := by
  intro fuel
  induction fuel with
  | zero => intro i s _ h; omega
  | succ fuel ih =>
    intro i s hle hfuel hinv
    by_cases hi : i < n
    · obtain ⟨s1, hb, h1⟩ := hstep i s hi hinv
      obtain ⟨s2, h2, h3⟩ := ih (i + 1) s1 (by omega) (by omega) h1
      exact ⟨s2, by simp [forLoop, hi, hb, h2], h3⟩
    · have : i = n := by omega
      subst this
      exact ⟨s, by simp [forLoop], hinv⟩

/-! ## The retrieval loop -/

/-- One iteration of the retrieval loop at an index inside the field grid succeeds and
extends the list of iteration records by the record of that index. -/
theorem retrieveBody_built {G D : Type} (A : Arith D) (M : MediumMagboltz G D)
    (efields : List D) (i : Nat) (s : Retrieval G D) (recs : List (Iteration G D))
    (hlen : recs.length = i) (hi : i < efields.length) (hb : s.Built A M efields recs) :
    ∃ s1 r, retrieveBody A M efields i s = some s1 ∧ s1.Built A M efields (recs ++ [r]) := by
  obtain ⟨hAt, hl, hv, ha, he, hdl, hdt, hc⟩ := hb
  have hget : efields[i]? = some efields[i] := List.getElem?_eq_getElem hi
  cases hrb : retrieveBody A M efields i s with
  | none => simp [retrieveBody, hget] at hrb
  | some s1 =>
  simp only [retrieveBody, hget, Option.some.injEq] at hrb
  subst hrb
  refine ⟨_, Iteration.run A M efields[i] s.gas i, rfl, ?_⟩
  · refine ⟨?_, ?_, ?_, ?_, ?_, ?_, ?_, ?_⟩
    · intro j r hr
      by_cases hj : j < recs.length
      · rw [List.getElem?_append_left hj] at hr
        exact hAt j r hr
      · rw [List.getElem?_append_right (by omega)] at hr
        have hj0 : j - recs.length = 0 := by
          by_contra hne
          have : 1 ≤ j - recs.length := by omega
          simp [List.getElem?_eq_none, this] at hr
        rw [hj0] at hr
        simp only [List.getElem?_cons_zero, Option.some.injEq] at hr
        have hji : j = i := by omega
        subst hr
        subst hji
        exact ⟨hget, rfl, rfl, rfl, rfl, rfl⟩
    · simp [List.flatMap_append, hl, Iteration.lookups, Iteration.run, MediumMagboltz.run]
    · simp [hv, Iteration.ve, MediumMagboltz.value, Iteration.run, MediumMagboltz.run]
    · simp [ha, Iteration.alpha, MediumMagboltz.value, Iteration.run, MediumMagboltz.run]
    · simp [he, Iteration.eta, MediumMagboltz.value, Iteration.run, MediumMagboltz.run]
    · simp [hdl, Iteration.dl, MediumMagboltz.value, Iteration.run, MediumMagboltz.run]
    · simp [hdt, Iteration.dt, MediumMagboltz.value, Iteration.run, MediumMagboltz.run]
    · simp [List.flatMap_append, hc, Iteration.ve, Iteration.alpha, Iteration.eta,
        Iteration.dl, Iteration.dt, MediumMagboltz.value, Iteration.run, MediumMagboltz.run]

/-- The retrieval loop, given more fuel than grid points, returns with the counter at the
grid size and a state built from one iteration record per grid index. -/
theorem retrieveLoop_built {G D : Type} (A : Arith D) (M : MediumMagboltz G D)
    (efields : List D) (g : G) (fuel : Nat) (hfuel : efields.length < fuel) :
    ∃ s recs, forLoop efields.length (retrieveBody A M efields) fuel 0
        { gas := g, lookups := [], driftVelocities := [], townsendCoeffs := []
          attachmentCoeffs := [], longitudinalDiffusions := [], transverseDiffusions := []
          cout := [] } = some (efields.length, s) ∧
      recs.length = efields.length ∧ s.Built A M efields recs := by
  have h := forLoop_inv efields.length (retrieveBody A M efields)
    (fun i s => ∃ recs : List (Iteration G D), recs.length = i ∧ s.Built A M efields recs)
    (by
      intro i s hi ⟨recs, hlen, hb⟩
      obtain ⟨s1, r, h1, h2⟩ := retrieveBody_built A M efields i s recs hlen hi hb
      exact ⟨s1, h1, recs ++ [r], by simp [hlen], h2⟩)
    fuel 0
    { gas := g, lookups := [], driftVelocities := [], townsendCoeffs := []
      attachmentCoeffs := [], longitudinalDiffusions := [], transverseDiffusions := []
      cout := [] }
    (Nat.zero_le _) (by omega) ⟨[], rfl, by simp [Retrieval.Built]⟩
  obtain ⟨s, hs, recs, hlen, hb⟩ := h
  exact ⟨s, recs, hs, hlen, hb⟩

/-- Two executions in a row are one execution. -/
theorem Chained.append {G D : Type} {M : MediumMagboltz G D} :
    ∀ (cs : List (Lookup G D)) (g g1 g2 : G) (ds : List (Lookup G D)),
      Chained M g cs g1 → Chained M g1 ds g2 → Chained M g (cs ++ ds) g2 := by
  intro cs
  induction cs with
  | nil =>
    intro g g1 g2 ds h1 h2
    simp only [Chained] at h1
    subst h1
    exact h2
  | cons c cs ih =>
    intro g g1 g2 ds h1 h2
    exact ⟨h1.1, ih _ _ _ ds h1.2 h2⟩

/-- The record of lookups kept by the retrieval loop is an execution of the library: it
starts on the gas object as `GetFieldGrid` left it, every lookup is run on the state the
previous one left, and the last one leaves the final state of the gas object. -/
theorem retrieveLoop_chained {G D : Type} (A : Arith D) (M : MediumMagboltz G D)
    (efields : List D) (g : G) (fuel : Nat) (hfuel : efields.length < fuel) :
    ∃ s, forLoop efields.length (retrieveBody A M efields) fuel 0
        { gas := g, lookups := [], driftVelocities := [], townsendCoeffs := []
          attachmentCoeffs := [], longitudinalDiffusions := [], transverseDiffusions := []
          cout := [] } = some (efields.length, s) ∧
      Chained M g s.lookups s.gas := by
  have h := forLoop_inv efields.length (retrieveBody A M efields)
    (fun _ s => Chained M g s.lookups s.gas)
    (by
      intro i s hi hch
      have hget : efields[i]? = some efields[i] := List.getElem?_eq_getElem hi
      cases hrb : retrieveBody A M efields i s with
      | none => simp [retrieveBody, hget] at hrb
      | some s1 =>
        simp only [retrieveBody, hget, Option.some.injEq] at hrb
        subst hrb
        exact ⟨_, rfl, Chained.append _ _ _ _ _ hch ⟨rfl, rfl, rfl, rfl, rfl, rfl⟩⟩)
    fuel 0
    { gas := g, lookups := [], driftVelocities := [], townsendCoeffs := []
      attachmentCoeffs := [], longitudinalDiffusions := [], transverseDiffusions := []
      cout := [] }
    (Nat.zero_le _) (by omega) rfl
  exact h

/-! ## The CSV loop and the whole program -/

/-- The CSV loop run on vectors built from iteration records, one per grid index, returns
with the counter at the grid size and the header followed by one row per record. -/
theorem csvLoop_built {G D : Type} (A : Arith D) (M : MediumMagboltz G D)
    (efields : List D) (recs : List (Iteration G D)) (s : Retrieval G D)
    (hlen : recs.length = efields.length) (hb : s.Built A M efields recs)
    (fuel : Nat) (hfuel : efields.length < fuel) :
    forLoop efields.length
        (csvBody A efields s.driftVelocities s.townsendCoeffs s.attachmentCoeffs
          s.longitudinalDiffusions s.transverseDiffusions) fuel 0 csvHeader
      = some (efields.length, csvHeader ++ recs.flatMap
          (fun r => csvRow A r.e (r.ve A M) (r.alpha A M) (r.eta A M) (r.dl M) (r.dt M))) := by
  obtain ⟨hAt, -, hv, ha, he, hdl, hdt, -⟩ := hb
  have h := forLoop_inv efields.length
    (csvBody A efields s.driftVelocities s.townsendCoeffs s.attachmentCoeffs
      s.longitudinalDiffusions s.transverseDiffusions)
    (fun k out => out = csvHeader ++ (recs.take k).flatMap
      (fun r => csvRow A r.e (r.ve A M) (r.alpha A M) (r.eta A M) (r.dl M) (r.dt M)))
    (by
      intro k out hk hout
      have hk1 : k < recs.length := by omega
      have hr : recs[k]? = some recs[k] := List.getElem?_eq_getElem hk1
      have hE := (hAt k _ hr).1
      refine ⟨out ++ csvRow A recs[k].e (recs[k].ve A M) (recs[k].alpha A M)
        (recs[k].eta A M) (recs[k].dl M) (recs[k].dt M), ?_, ?_⟩
      · simp only [csvBody, hE, hv, ha, he, hdl, hdt, hr, List.getElem?_map, Option.map_some']
      · subst hout
        simp only [List.take_succ, hr, List.flatMap_append, Option.toList, List.flatMap_cons,
          List.flatMap_nil, List.append_nil, List.append_assoc])
    fuel 0 csvHeader (Nat.zero_le _) (by omega)
    (by simp only [List.take_zero, List.flatMap_nil, List.append_nil])
  obtain ⟨out, h1, h2⟩ := h
  rw [h1, h2, ← hlen, List.take_length]

/-- The retrieval with more fuel than grid points returns, with the counter at the grid
size and a state that is built from one iteration record per grid index and whose record
of lookups is an execution of the library. -/
theorem retrieve_built {G D : Type} (A : Arith D) (M : MediumMagboltz G D) (gas : G)
    (fuel : Nat) (hfuel : (fieldGrid A M gas).length < fuel) :
    ∃ s recs, retrieve A M gas fuel = some ((fieldGrid A M gas).length, s) ∧
      recs.length = (fieldGrid A M gas).length ∧
      s.Built A M (fieldGrid A M gas) recs ∧
      Chained M (M.GetFieldGrid gas [] [A.zero] [A.ninety]).1 s.lookups s.gas := by
  obtain ⟨s, recs, hs, hlen, hb⟩ :=
    retrieveLoop_built A M (fieldGrid A M gas) (M.GetFieldGrid gas [] [A.zero] [A.ninety]).1
      fuel hfuel
  obtain ⟨s1, hs1, hch⟩ :=
    retrieveLoop_chained A M (fieldGrid A M gas)
      (M.GetFieldGrid gas [] [A.zero] [A.ninety]).1 fuel hfuel
  rw [hs] at hs1
  simp only [Option.some.injEq, Prod.mk.injEq, true_and] at hs1
  subst hs1
  exact ⟨s, recs, hs, hlen, hb, hch⟩

/-- The CSV part run on a state built from iteration records, one per grid index, returns
with the counter at the grid size and the header followed by one row per record. -/
theorem writeCsv_built {G D : Type} (A : Arith D) (M : MediumMagboltz G D)
    (efields : List D) (recs : List (Iteration G D)) (s : Retrieval G D)
    (hlen : recs.length = efields.length) (hb : s.Built A M efields recs)
    (fuel : Nat) (hfuel : efields.length < fuel) :
    writeCsv A efields s fuel
      = some (efields.length, csvHeader ++ recs.flatMap
          (fun r => csvRow A r.e (r.ve A M) (r.alpha A M) (r.eta A M) (r.dl M) (r.dt M))) :=
  csvLoop_built A M efields recs s hlen hb fuel hfuel

/-- On a non-empty vector `&v[0]` is the array. -/
theorem addressOfFirst_pos {D : Type} (v : List D) (h : 0 < v.length) :
    addressOfFirst v = some v := by
  cases v with
  | nil => simp at h
  | cons a v => simp [addressOfFirst]

/-- The plots on non-empty vectors: no read is out of bounds and the five images are
returned. -/
theorem plots_pos {D : Type} (nE : Nat) (efields dv tc ac ld td : List D)
    (h0 : 0 < efields.length) (h1 : 0 < dv.length) (h2 : 0 < tc.length) (h3 : 0 < ac.length)
    (h4 : 0 < ld.length) (h5 : 0 < td.length) :
    plots nE efields dv tc ac ld td = some (imagesOf nE efields dv tc ac ld td) := by
  simp only [plots, addressOfFirst_pos _ h0, addressOfFirst_pos _ h1, addressOfFirst_pos _ h2,
    addressOfFirst_pos _ h3, addressOfFirst_pos _ h4, addressOfFirst_pos _ h5]
  rfl

/-- The plots on an empty field grid: the first read `efields[0]` is out of bounds. -/
theorem plots_nil {D : Type} (nE : Nat) (dv tc ac ld td : List D) :
    plots nE [] dv tc ac ld td = none := rfl

/-- What `main` returns is made of what its three parts return. -/
theorem main_eq_some {G D : Type} (A : Arith D) (M : MediumMagboltz G D) (gas : G)
    (fuel : Nat) (out : Output G D) (h : main A M gas fuel = some out) :
    retrieve A M gas fuel = some (out.retrievalCount, out.retrieval) ∧
      out.efields = fieldGrid A M gas ∧
      plots (fieldGrid A M gas).length (fieldGrid A M gas) out.retrieval.driftVelocities
        out.retrieval.townsendCoeffs out.retrieval.attachmentCoeffs
        out.retrieval.longitudinalDiffusions out.retrieval.transverseDiffusions
        = some out.images ∧
      writeCsv A (fieldGrid A M gas) out.retrieval fuel = some (out.csvCount, out.csv) := by
  unfold main at h
  cases hr : retrieve A M gas fuel with
  | none => simp [hr] at h
  | some r =>
    obtain ⟨i, s⟩ := r
    simp only [hr] at h
    cases hp : plots (fieldGrid A M gas).length (fieldGrid A M gas) s.driftVelocities
        s.townsendCoeffs s.attachmentCoeffs s.longitudinalDiffusions
        s.transverseDiffusions with
    | none => simp [hp] at h
    | some images =>
      simp only [hp] at h
      cases hw : writeCsv A (fieldGrid A M gas) s fuel with
      | none => simp [hw] at h
      | some w =>
        obtain ⟨k, csv⟩ := w
        simp only [hw, Option.some.injEq] at h
        subst h
        exact ⟨rfl, rfl, hp, hw⟩

/-- On an empty field grid `main` has no result, whatever the fuel: the read `efields[0]`
of line 86 is out of bounds. -/
theorem main_nil {G D : Type} (A : Arith D) (M : MediumMagboltz G D) (gas : G) (fuel : Nat)
    (h : fieldGrid A M gas = []) : main A M gas fuel = none := by
  cases hm : main A M gas fuel with
  | none => rfl
  | some out =>
    have hp := (main_eq_some A M gas fuel out hm).2.2.1
    rw [h, plots_nil] at hp
    cases hp

/-- The whole program on a non-empty field grid, with more fuel than grid points: `main`
returns, both loops end with their counter at the grid size, and everything written is
built from one list of iteration records, one per grid index. -/
theorem main_built {G D : Type} (A : Arith D) (M : MediumMagboltz G D) (gas : G) (fuel : Nat)
    (hfuel : (fieldGrid A M gas).length < fuel) (hpos : 0 < (fieldGrid A M gas).length)
    (s : Retrieval G D) (recs : List (Iteration G D))
    (hs : retrieve A M gas fuel = some ((fieldGrid A M gas).length, s))
    (hlen : recs.length = (fieldGrid A M gas).length)
    (hb : s.Built A M (fieldGrid A M gas) recs) :
    main A M gas fuel = some
      { efields := fieldGrid A M gas, retrieval := s
        retrievalCount := (fieldGrid A M gas).length
        images := imagesOf (fieldGrid A M gas).length (fieldGrid A M gas) s.driftVelocities
          s.townsendCoeffs s.attachmentCoeffs s.longitudinalDiffusions s.transverseDiffusions
        csv := csvHeader ++ recs.flatMap
          (fun r => csvRow A r.e (r.ve A M) (r.alpha A M) (r.eta A M) (r.dl M) (r.dt M))
        csvCount := (fieldGrid A M gas).length } := by
  have hc := writeCsv_built A M (fieldGrid A M gas) recs s hlen hb fuel hfuel
  obtain ⟨-, -, hv, ha, he, hdl, hdt, -⟩ := hb
  have hp := plots_pos (fieldGrid A M gas).length (fieldGrid A M gas) s.driftVelocities
    s.townsendCoeffs s.attachmentCoeffs s.longitudinalDiffusions s.transverseDiffusions hpos
    (by rw [hv, List.length_map, hlen]; exact hpos)
    (by rw [ha, List.length_map, hlen]; exact hpos)
    (by rw [he, List.length_map, hlen]; exact hpos)
    (by rw [hdl, List.length_map, hlen]; exact hpos)
    (by rw [hdt, List.length_map, hlen]; exact hpos)
  simp only [main, hs, hp, hc]

/-! ## Reading the iteration records -/

/-- Every lookup of the iteration with index `j` has the indices `(j, 0, 0)` and a variable
holding `0.`, and its getter tells which of the five it is. -/
theorem Iteration.At.sel {G D : Type} {A : Arith D} {M : MediumMagboltz G D}
    {efields : List D} {j : Nat} {r : Iteration G D} (h : r.At A M efields j)
    (c : Lookup G D) (hc : c ∈ r.lookups) :
    c.ie = j ∧ c.ib = 0 ∧ c.ia = 0 ∧ c.arg = A.zero ∧
      (c.getter = .ElectronVelocityE → c = r.c1) ∧
      (c.getter = .ElectronLongitudinalDiffusion → c = r.c2) ∧
      (c.getter = .ElectronTransverseDiffusion → c = r.c3) ∧
      (c.getter = .ElectronTownsend → c = r.c4) ∧
      (c.getter = .ElectronAttachment → c = r.c5) := by
  obtain ⟨-, h1, h2, h3, h4, h5⟩ := h
  simp only [Iteration.lookups, List.mem_cons, List.mem_singleton, List.not_mem_nil,
    or_false] at hc
  rcases hc with rfl | rfl | rfl | rfl | rfl
  · rw [h1]; simp
  · rw [h2]; simp
  · rw [h3]; simp
  · rw [h4]; simp
  · rw [h5]; simp

/-- The getters of the five lookups of an iteration. -/
theorem Iteration.At.getters {G D : Type} {A : Arith D} {M : MediumMagboltz G D}
    {efields : List D} {j : Nat} {r : Iteration G D} (h : r.At A M efields j) :
    r.c1.getter = .ElectronVelocityE ∧ r.c2.getter = .ElectronLongitudinalDiffusion ∧
      r.c3.getter = .ElectronTransverseDiffusion ∧ r.c4.getter = .ElectronTownsend ∧
      r.c5.getter = .ElectronAttachment := by
  obtain ⟨-, h1, h2, h3, h4, h5⟩ := h
  refine ⟨?_, ?_, ?_, ?_, ?_⟩
  · rw [h1]
  · rw [h2]
  · rw [h3]
  · rw [h4]
  · rw [h5]

/-- In a state built from iteration records, the five lookups of the record at position
`i` are the lookups of the five getters at the field index `i`. -/
theorem Retrieval.Built.isLookup {G D : Type} {A : Arith D} {M : MediumMagboltz G D}
    {efields : List D} {recs : List (Iteration G D)} {s : Retrieval G D}
    (hb : s.Built A M efields recs) (i : Nat) (r : Iteration G D) (hr : recs[i]? = some r) :
    IsLookup A s.lookups .ElectronVelocityE i r.c1 ∧
      IsLookup A s.lookups .ElectronLongitudinalDiffusion i r.c2 ∧
      IsLookup A s.lookups .ElectronTransverseDiffusion i r.c3 ∧
      IsLookup A s.lookups .ElectronTownsend i r.c4 ∧
      IsLookup A s.lookups .ElectronAttachment i r.c5 := by
  obtain ⟨hAt, hl, -⟩ := hb
  have hri := hAt i r hr
  have hmem : ∀ c ∈ r.lookups, c ∈ s.lookups := by
    intro c hc
    rw [hl, List.mem_flatMap]
    exact ⟨r, List.mem_iff_getElem?.2 ⟨i, hr⟩, hc⟩
  have huniq : ∀ c1 ∈ s.lookups, c1.ie = i → c1 ∈ r.lookups := by
    intro c1 hc1 hie
    rw [hl, List.mem_flatMap] at hc1
    obtain ⟨r1, hr1, hc1⟩ := hc1
    obtain ⟨j, hj⟩ := List.mem_iff_getElem?.1 hr1
    have hji : j = i := by
      have := ((hAt j r1 hj).sel c1 hc1).1
      omega
    subst hji
    rw [hr] at hj
    cases hj
    exact hc1
  obtain ⟨g1, g2, g3, g4, g5⟩ := hri.getters
  have m1 : r.c1 ∈ r.lookups := by simp [Iteration.lookups]
  have m2 : r.c2 ∈ r.lookups := by simp [Iteration.lookups]
  have m3 : r.c3 ∈ r.lookups := by simp [Iteration.lookups]
  have m4 : r.c4 ∈ r.lookups := by simp [Iteration.lookups]
  have m5 : r.c5 ∈ r.lookups := by simp [Iteration.lookups]
  refine ⟨?_, ?_, ?_, ?_, ?_⟩
  · obtain ⟨a, b, c, d, -⟩ := hri.sel _ m1
    exact ⟨hmem _ m1, g1, a, b, c, d,
      fun c1 h1 hg hie => (hri.sel c1 (huniq c1 h1 hie)).2.2.2.2.1 hg⟩
  · obtain ⟨a, b, c, d, -⟩ := hri.sel _ m2
    exact ⟨hmem _ m2, g2, a, b, c, d,
      fun c1 h1 hg hie => (hri.sel c1 (huniq c1 h1 hie)).2.2.2.2.2.1 hg⟩
  · obtain ⟨a, b, c, d, -⟩ := hri.sel _ m3
    exact ⟨hmem _ m3, g3, a, b, c, d,
      fun c1 h1 hg hie => (hri.sel c1 (huniq c1 h1 hie)).2.2.2.2.2.2.1 hg⟩
  · obtain ⟨a, b, c, d, -⟩ := hri.sel _ m4
    exact ⟨hmem _ m4, g4, a, b, c, d,
      fun c1 h1 hg hie => (hri.sel c1 (huniq c1 h1 hie)).2.2.2.2.2.2.2.1 hg⟩
  · obtain ⟨a, b, c, d, -⟩ := hri.sel _ m5
    exact ⟨hmem _ m5, g5, a, b, c, d,
      fun c1 h1 hg hie => (hri.sel c1 (huniq c1 h1 hie)).2.2.2.2.2.2.2.2 hg⟩

/-- In a state built from iteration records, the entries at position `i` of the field
grid and of the five vectors are the values of the record at position `i`. -/
theorem Retrieval.Built.values {G D : Type} {A : Arith D} {M : MediumMagboltz G D}
    {efields : List D} {recs : List (Iteration G D)} {s : Retrieval G D}
    (hb : s.Built A M efields recs) (i : Nat) (r : Iteration G D) (hr : recs[i]? = some r) :
    efields[i]? = some r.e ∧
      s.driftVelocities[i]? = some (r.ve A M) ∧
      s.townsendCoeffs[i]? = some (r.alpha A M) ∧
      s.attachmentCoeffs[i]? = some (r.eta A M) ∧
      s.longitudinalDiffusions[i]? = some (r.dl M) ∧
      s.transverseDiffusions[i]? = some (r.dt M) := by
  obtain ⟨hAt, -, hv, ha, he, hdl, hdt, -⟩ := hb
  refine ⟨(hAt i r hr).1, ?_, ?_, ?_, ?_, ?_⟩
  · rw [hv, List.getElem?_map, hr]; rfl
  · rw [ha, List.getElem?_map, hr]; rfl
  · rw [he, List.getElem?_map, hr]; rfl
  · rw [hdl, List.getElem?_map, hr]; rfl
  · rw [hdt, List.getElem?_map, hr]; rfl

/-- In a state built from iteration records, the five vectors have one entry per record. -/
theorem Retrieval.Built.lengths {G D : Type} {A : Arith D} {M : MediumMagboltz G D}
    {efields : List D} {recs : List (Iteration G D)} {s : Retrieval G D}
    (hb : s.Built A M efields recs) :
    s.driftVelocities.length = recs.length ∧ s.townsendCoeffs.length = recs.length ∧
      s.attachmentCoeffs.length = recs.length ∧
      s.longitudinalDiffusions.length = recs.length ∧
      s.transverseDiffusions.length = recs.length := by
  obtain ⟨-, -, hv, ha, he, hdl, hdt, -⟩ := hb
  simp [hv, ha, he, hdl, hdt]

/-- The keys of the lookups of a list of iteration records whose first record has the
index `k`: the sweep keys of `k`, `k + 1`, and so on. -/
theorem keys_flatMap {G D : Type} (A : Arith D) (M : MediumMagboltz G D) (efields : List D) :
    ∀ (recs : List (Iteration G D)) (k : Nat),
      (∀ (j : Nat) (r : Iteration G D), recs[j]? = some r → r.At A M efields (k + j)) →
      (recs.flatMap Iteration.lookups).map Lookup.key
        = (List.range' k recs.length).flatMap sweepKeys := by
  intro recs
  induction recs with
  | nil => intro k _; rfl
  | cons r rs ih =>
    intro k h
    have h0 := h 0 r (by simp)
    have hrest := ih (k + 1) (fun j r1 hj => by
      have := h (j + 1) r1 (by simpa using hj)
      rwa [show k + 1 + j = k + (j + 1) by omega])
    obtain ⟨-, h1, h2, h3, h4, h5⟩ := h0
    rw [List.flatMap_cons, List.map_append, hrest, List.length_cons, List.range'_succ,
      List.flatMap_cons]
    congr 1
    simp only [Iteration.lookups, List.map_cons, List.map_nil, Lookup.key, sweepKeys]
    rw [h1, h2, h3, h4, h5]
    rfl

/-! ## Lines and fields of the texts written -/

/-- A text made of pieces each followed by the separator `x`, none containing `x`, splits
on `x` into these pieces and the empty piece after the last separator. -/
theorem splitOn_terminated {α β : Type} [DecidableEq α] (x : α) (f : β → List α) :
    ∀ rs : List β, (∀ r ∈ rs, x ∉ f r) →
      (rs.flatMap (fun r => f r ++ [x])).splitOn x = rs.map f ++ [[]] := by
  intro rs
  induction rs with
  | nil => intro _; simp [List.splitOn_nil]
  | cons r rs ih =>
    intro h
    have hr : ∀ y ∈ f r, ¬ ((y == x) = true) := by
      intro y hy hyx
      rw [eq_of_beq hyx] at hy
      exact h r (List.mem_cons_self r rs) hy
    have := List.splitOnP_first (fun y => y == x) (f r) hr x (by simp)
      (rs.flatMap (fun r => f r ++ [x]))
    rw [List.flatMap_cons, List.append_assoc, List.singleton_append, List.splitOn, this,
      List.map_cons, List.cons_append]
    congr 1
    exact ih (fun r1 h1 => h r1 (List.mem_cons_of_mem r h1))

/-- The console line is its text followed by a newline, and the text has no newline when
the formatted numbers have none. -/
theorem consoleLine_text {D : Type} (A : Arith D) (hfmt : ∀ d, '\n' ∉ A.fmt d)
    (e ve alpha eta dl dt : D) :
    consoleLine A e ve alpha eta dl dt
        = (consoleLine A e ve alpha eta dl dt).dropLast ++ ['\n'] ∧
      '\n' ∉ (consoleLine A e ve alpha eta dl dt).dropLast := by
  have h : consoleLine A e ve alpha eta dl dt
      = ("E_Field: ".toList ++ A.fmt e ++ " V/cm, Drift_Velocity: ".toList ++ A.fmt ve
        ++ " cm/μs, Townsend_Coeff: ".toList ++ A.fmt alpha
        ++ " 1/cm, Attachment_Coeff: ".toList ++ A.fmt eta
        ++ " √cm, Longitudinal_Diffusion: ".toList ++ A.fmt dl
        ++ " √cm, Transverse_Diffusion: ".toList ++ A.fmt dt ++ " √cm".toList) ++ ['\n'] := by
    simp only [consoleLine, List.append_assoc]
    rfl
  rw [h, List.dropLast_concat]
  refine ⟨rfl, ?_⟩
  simp only [List.mem_append, not_or]
  exact ⟨⟨⟨⟨⟨⟨⟨⟨⟨⟨⟨⟨by decide, hfmt e⟩, by decide⟩, hfmt ve⟩, by decide⟩, hfmt alpha⟩,
    by decide⟩, hfmt eta⟩, by decide⟩, hfmt dl⟩, by decide⟩, hfmt dt⟩, by decide⟩

/-- The CSV row is its text followed by a newline, and the text has no newline when the
formatted numbers have none. -/
theorem csvRow_text {D : Type} (A : Arith D) (hfmt : ∀ d, '\n' ∉ A.fmt d)
    (e ve alpha eta dl dt : D) :
    csvRow A e ve alpha eta dl dt = (csvRow A e ve alpha eta dl dt).dropLast ++ ['\n'] ∧
      '\n' ∉ (csvRow A e ve alpha eta dl dt).dropLast := by
  have h : csvRow A e ve alpha eta dl dt
      = [','].intercalate [A.fmt e, A.fmt ve, A.fmt alpha, A.fmt eta, A.fmt dl, A.fmt dt]
        ++ ['\n'] := by
    simp [csvRow, List.intercalate, List.intersperse]
  rw [h, List.dropLast_concat]
  refine ⟨rfl, ?_⟩
  simp only [List.intercalate, List.intersperse, List.flatten, List.mem_append,
    List.mem_singleton, List.not_mem_nil, not_or, or_false]
  exact ⟨hfmt e, by decide, hfmt ve, by decide, hfmt alpha, by decide,
    hfmt eta, by decide, hfmt dl, by decide, hfmt dt⟩

/-- The text of a CSV row splits on commas into the six formatted numbers, when the
formatted numbers have no comma. -/
theorem csvRow_fields {D : Type} (A : Arith D) (hfmt : ∀ d, ',' ∉ A.fmt d)
    (e ve alpha eta dl dt : D) :
    (csvRow A e ve alpha eta dl dt).dropLast.splitOn ','
      = [A.fmt e, A.fmt ve, A.fmt alpha, A.fmt eta, A.fmt dl, A.fmt dt] := by
  have h : csvRow A e ve alpha eta dl dt
      = [','].intercalate [A.fmt e, A.fmt ve, A.fmt alpha, A.fmt eta, A.fmt dl, A.fmt dt]
        ++ ['\n'] := by
    simp [csvRow, List.intercalate, List.intersperse]
  rw [h, List.dropLast_concat]
  apply List.splitOn_intercalate
  · intro l hl
    simp only [List.mem_cons, List.mem_singleton, List.not_mem_nil, or_false] at hl
    rcases hl with rfl | rfl | rfl | rfl | rfl | rfl
    · exact hfmt e
    · exact hfmt ve
    · exact hfmt alpha
    · exact hfmt eta
    · exact hfmt dl
    · exact hfmt dt
  · exact List.cons_ne_nil _ _

/-- The lines of the console output of a state built from iteration records: one per
record, then the empty piece after the last newline. -/
theorem cout_lines {G D : Type} {A : Arith D} {M : MediumMagboltz G D} {efields : List D}
    {recs : List (Iteration G D)} {s : Retrieval G D} (hb : s.Built A M efields recs)
    (hfmt : ∀ d, '\n' ∉ A.fmt d) :
    s.cout.splitOn '\n'
      = recs.map (fun r =>
          (consoleLine A r.e (r.ve A M) (r.alpha A M) (r.eta A M) (r.dl M) (r.dt M)).dropLast)
        ++ [[]] := by
  have h := splitOn_terminated '\n'
    (fun r : Iteration G D =>
      (consoleLine A r.e (r.ve A M) (r.alpha A M) (r.eta A M) (r.dl M) (r.dt M)).dropLast)
    recs (fun r _ => (consoleLine_text A hfmt _ _ _ _ _ _).2)
  rw [← h, hb.2.2.2.2.2.2.2]
  congr 2
  funext r
  exact (consoleLine_text A hfmt _ _ _ _ _ _).1

set_option maxRecDepth 100000 in
/-- The header of the CSV file is its text followed by a newline; the text has no newline
and names six columns. -/
theorem csvHeader_text :
    csvHeader = csvHeader.dropLast ++ ['\n'] ∧
      (∀ y ∈ csvHeader.dropLast, ¬ ((y == '\n') = true)) ∧
      csvHeader.dropLast.splitOn ','
        = ["E_Field[V/cm]".toList, "Drift_Velocity[cm/us]".toList,
            "Townsend_Coeff[1/cm]".toList, "Attachment_Coeff[1/cm]".toList,
            "Longitudinal_Diffusion[√cm]".toList, "Transverse_Diffusion[√cm]".toList] := by
  decide

/-- The lines of a CSV text made of the header and one row per iteration record: the
header line, one line per record, then the empty piece after the last newline. -/
theorem csv_lines {G D : Type} (A : Arith D) (M : MediumMagboltz G D)
    (recs : List (Iteration G D)) (hfmt : ∀ d, '\n' ∉ A.fmt d) :
    (csvHeader ++ recs.flatMap
        (fun r => csvRow A r.e (r.ve A M) (r.alpha A M) (r.eta A M) (r.dl M) (r.dt M))).splitOn
        '\n'
      = csvHeader.dropLast :: recs.map (fun r =>
          (csvRow A r.e (r.ve A M) (r.alpha A M) (r.eta A M) (r.dl M) (r.dt M)).dropLast)
        ++ [[]] := by
  have h := splitOn_terminated '\n'
    (fun r : Iteration G D =>
      (csvRow A r.e (r.ve A M) (r.alpha A M) (r.eta A M) (r.dl M) (r.dt M)).dropLast)
    recs (fun r _ => (csvRow_text A hfmt _ _ _ _ _ _).2)
  have hrows : recs.flatMap
      (fun r => csvRow A r.e (r.ve A M) (r.alpha A M) (r.eta A M) (r.dl M) (r.dt M))
      = recs.flatMap (fun r =>
        (csvRow A r.e (r.ve A M) (r.alpha A M) (r.eta A M) (r.dl M) (r.dt M)).dropLast
          ++ ['\n']) := by
    congr 1
    funext r
    exact (csvRow_text A hfmt _ _ _ _ _ _).1
  have hhead : csvHeader = csvHeader.dropLast ++ ['\n'] := csvHeader_text.1
  have hno : ∀ y ∈ csvHeader.dropLast, ¬ ((y == '\n') = true) := csvHeader_text.2.1
  rw [hrows, hhead, List.dropLast_concat, List.append_assoc, List.singleton_append,
    List.splitOn, List.splitOnP_first _ _ hno _ (by decide), List.cons_append]
  congr 1

/-- A graph whose two arrays have exactly `n` entries has the points obtained by pairing
the arrays. -/
theorem TGraph.points_full {D : Type} (g : TGraph D) (hx : g.x.length = g.n)
    (hy : g.y.length = g.n) : g.points = some (g.x.zip g.y) := by
  rw [TGraph.points, if_pos ⟨by omega, by omega⟩, ← hx, List.take_length,
    List.take_of_length_le (by omega)]

/-- The formatted rationals have neither a newline nor a comma. -/
theorem digits_clean : ∀ (fuel n : Nat) (c : Char), c ∈ digits fuel n →
    c ≠ '\n' ∧ c ≠ ',' := by
  have hd : ∀ m, m < 10 → Nat.digitChar m ≠ '\n' ∧ Nat.digitChar m ≠ ',' := by decide
  intro fuel
  induction fuel with
  | zero => intro n c hc; simp [digits] at hc
  | succ fuel ih =>
    intro n c hc
    rw [digits] at hc
    split at hc
    · rename_i hn
      rw [List.mem_singleton] at hc
      rw [hc]
      exact hd n hn
    · rw [List.mem_append, List.mem_singleton] at hc
      rcases hc with hc | hc
      · exact ih _ c hc
      · rw [hc]
        exact hd _ (Nat.mod_lt _ (by decide))

/-- The text of a rational has neither a newline nor a comma. -/
theorem fmtRat_clean (q : ℚ) : '\n' ∉ fmtRat q ∧ ',' ∉ fmtRat q := by
  have key : ∀ c ∈ fmtRat q, c ≠ '\n' ∧ c ≠ ',' := by
    intro c hc
    simp only [fmtRat, List.mem_append] at hc
    rcases hc with (hc | hc) | hc
    · split at hc
      · rw [List.mem_singleton] at hc
        rw [hc]
        decide
      · simp at hc
    · exact digits_clean _ _ c hc
    · split at hc
      · simp at hc
      · rw [List.mem_cons] at hc
        rcases hc with hc | hc
        · rw [hc]
          decide
        · exact digits_clean _ _ c hc
  exact ⟨fun h => (key _ h).1 rfl, fun h => (key _ h).2 rfl⟩

/-- The text of the console line without its newline, spelled out. -/
theorem consoleLine_dropLast {D : Type} (A : Arith D) (e ve alpha eta dl dt : D) :
    (consoleLine A e ve alpha eta dl dt).dropLast
      = "E_Field: ".toList ++ A.fmt e ++ " V/cm, Drift_Velocity: ".toList ++ A.fmt ve
        ++ " cm/μs, Townsend_Coeff: ".toList ++ A.fmt alpha
        ++ " 1/cm, Attachment_Coeff: ".toList ++ A.fmt eta
        ++ " √cm, Longitudinal_Diffusion: ".toList ++ A.fmt dl
        ++ " √cm, Transverse_Diffusion: ".toList ++ A.fmt dt ++ " √cm".toList := by
  have h : consoleLine A e ve alpha eta dl dt
      = ("E_Field: ".toList ++ A.fmt e ++ " V/cm, Drift_Velocity: ".toList ++ A.fmt ve
        ++ " cm/μs, Townsend_Coeff: ".toList ++ A.fmt alpha
        ++ " 1/cm, Attachment_Coeff: ".toList ++ A.fmt eta
        ++ " √cm, Longitudinal_Diffusion: ".toList ++ A.fmt dl
        ++ " √cm, Transverse_Diffusion: ".toList ++ A.fmt dt ++ " √cm".toList) ++ ['\n'] := by
    simp only [consoleLine, List.append_assoc]
    rfl
  rw [h, List.dropLast_concat]

/-- The text of the CSV row without its newline, spelled out. -/
theorem csvRow_dropLast {D : Type} (A : Arith D) (e ve alpha eta dl dt : D) :
    (csvRow A e ve alpha eta dl dt).dropLast
      = A.fmt e ++ ",".toList ++ A.fmt ve ++ ",".toList ++ A.fmt alpha ++ ",".toList
        ++ A.fmt eta ++ ",".toList ++ A.fmt dl ++ ",".toList ++ A.fmt dt := by
  have h : csvRow A e ve alpha eta dl dt
      = (A.fmt e ++ ",".toList ++ A.fmt ve ++ ",".toList ++ A.fmt alpha ++ ",".toList
        ++ A.fmt eta ++ ",".toList ++ A.fmt dl ++ ",".toList ++ A.fmt dt) ++ ['\n'] := by
    simp only [csvRow, List.append_assoc]
    rfl
  rw [h, List.dropLast_concat]

/-! ## The three parts together -/

/-- What `main` returns, when it returns with more fuel than grid points: the field grid is
not empty and the output is made of the state the retrieval returned, the five images on
the vectors of that state and the CSV text of one row per iteration record. -/
theorem main_out {G D : Type} (A : Arith D) (M : MediumMagboltz G D) (gas : G) (fuel : Nat)
    (hfuel : (fieldGrid A M gas).length < fuel)
    (s : Retrieval G D) (recs : List (Iteration G D))
    (hs : retrieve A M gas fuel = some ((fieldGrid A M gas).length, s))
    (hlen : recs.length = (fieldGrid A M gas).length)
    (hb : s.Built A M (fieldGrid A M gas) recs)
    (out : Output G D) (h : main A M gas fuel = some out) :
    0 < (fieldGrid A M gas).length ∧
      out =
        { efields := fieldGrid A M gas, retrieval := s
          retrievalCount := (fieldGrid A M gas).length
          images := imagesOf (fieldGrid A M gas).length (fieldGrid A M gas) s.driftVelocities
            s.townsendCoeffs s.attachmentCoeffs s.longitudinalDiffusions
            s.transverseDiffusions
          csv := csvHeader ++ recs.flatMap
            (fun r => csvRow A r.e (r.ve A M) (r.alpha A M) (r.eta A M) (r.dl M) (r.dt M))
          csvCount := (fieldGrid A M gas).length } := by
  have hpos : 0 < (fieldGrid A M gas).length := by
    by_contra hn
    have h0 : fieldGrid A M gas = [] := List.length_eq_zero.1 (by omega)
    rw [main_nil A M gas fuel h0] at h
    cases h
  have hm := main_built A M gas fuel hfuel hpos s recs hs hlen hb
  rw [hm] at h
  exact ⟨hpos, (Option.some.inj h).symm⟩

/-- The state the retrieval returned is the retrieval state of whatever `main` returns, and
`main` returns when the field grid is not empty. -/
theorem main_links {G D : Type} (A : Arith D) (M : MediumMagboltz G D) (gas : G) (fuel : Nat)
    (hfuel : (fieldGrid A M gas).length < fuel)
    (s : Retrieval G D) (recs : List (Iteration G D))
    (hs : retrieve A M gas fuel = some ((fieldGrid A M gas).length, s))
    (hlen : recs.length = (fieldGrid A M gas).length)
    (hb : s.Built A M (fieldGrid A M gas) recs) :
    (∀ out, main A M gas fuel = some out → out.retrieval = s) ∧
      (0 < (fieldGrid A M gas).length → ∃ out, main A M gas fuel = some out) := by
  refine ⟨fun out h => ?_, fun hpos => ⟨_, main_built A M gas fuel hfuel hpos s recs hs hlen hb⟩⟩
  rw [(main_out A M gas fuel hfuel s recs hs hlen hb out h).2]

/-! ## The embedding run on the sample tables -/

/-- On the sample table `main` returns after two iterations of each loop, with the drift
velocities multiplied by 1000, the coefficients equal to `exp 0 = 1` (at index 0 the table
holds the logarithm 0, at index 1 it holds nothing and the variable stays 0), the
diffusions as in the table, and a CSV text of a header and two rows. -/
theorem sample_run :
    ∃ out, main ratArith tableMedium sampleTable 3 = some out ∧
      out.efields = [100, 200] ∧
      out.retrieval.driftVelocities = [1000, 2000] ∧
      out.retrieval.townsendCoeffs = [1, 1] ∧
      out.retrieval.attachmentCoeffs = [1, 1] ∧
      out.retrieval.longitudinalDiffusions = [3, 4] ∧
      out.retrieval.transverseDiffusions = [5, 6] ∧
      out.retrievalCount = 2 ∧ out.csvCount = 2 ∧
      out.csv = csvHeader ++ "100,1000,1,1,3,5\n200,2000,1,1,4,6\n".toList := by
  refine ⟨_, rfl, ?_⟩
  simp [MediumMagboltz.run, tableMedium, Table.entry, sampleTable, ratArith,
    MediumMagboltz.value, expUnderflow, expTaylor, List.range_succ, fieldGrid, csvRow, fmtRat,
    digits]
  norm_num
  decide

/-! ## The claims -/

/-- C1: for every field-grid index `i < nE`, the entry `driftVelocities[i]` is the product
of the value that the lookup `GetElectronVelocityE(i, 0, 0, .)` returned and `1.e3`; when
that lookup left the variable at its initial `0.`, the entry is `0.` (given that the
product of `0.` and `1.e3` is `0.`). The vectors are those of the state `s` after the
retrieval loop, which is the retrieval state of what `main` returns. -/
theorem driftVelocity_rescaled {G D : Type} (A : Arith D) (M : MediumMagboltz G D) (gas : G)
    (fuel : Nat) (hfuel : (fieldGrid A M gas).length < fuel)
    (hzero : A.mul A.zero A.e3 = A.zero) :
    ∃ s, retrieve A M gas fuel = some ((fieldGrid A M gas).length, s) ∧
      (∀ out, main A M gas fuel = some out → out.retrieval = s) ∧
      (0 < (fieldGrid A M gas).length → ∃ out, main A M gas fuel = some out) ∧
      ∀ i, i < (fieldGrid A M gas).length →
        ∃ c, IsLookup A s.lookups .ElectronVelocityE i c ∧
          s.driftVelocities[i]? = some (A.mul (M.value c) A.e3) ∧
          (M.value c = A.zero → s.driftVelocities[i]? = some A.zero) := by
  obtain ⟨s, recs, hs, hlen, hb, -⟩ := retrieve_built A M gas fuel hfuel
  obtain ⟨k1, k2⟩ := main_links A M gas fuel hfuel s recs hs hlen hb
  refine ⟨s, hs, k1, k2, fun i hi => ?_⟩
  have hr : recs[i]? = some recs[i] := List.getElem?_eq_getElem (by omega)
  have hv := (hb.values i _ hr).2.1
  refine ⟨recs[i].c1, (hb.isLookup i _ hr).1, hv, fun h0 => ?_⟩
  rw [hv, Iteration.ve, h0, hzero]

/-- C2: for every field-grid index `i < nE`, the entry `townsendCoeffs[i]` is `exp` of the
value that the lookup `GetElectronTownsend(i, 0, 0, .)` returned and `attachmentCoeffs[i]`
is `exp` of the value that the lookup `GetElectronAttachment(i, 0, 0, .)` returned. The
vectors are those of the state `s` after the retrieval loop, which is the retrieval state
of what `main` returns. -/
theorem coefficients_exponentiated {G D : Type} (A : Arith D) (M : MediumMagboltz G D)
    (gas : G) (fuel : Nat) (hfuel : (fieldGrid A M gas).length < fuel) :
    ∃ s, retrieve A M gas fuel = some ((fieldGrid A M gas).length, s) ∧
      (∀ out, main A M gas fuel = some out → out.retrieval = s) ∧
      (0 < (fieldGrid A M gas).length → ∃ out, main A M gas fuel = some out) ∧
      ∀ i, i < (fieldGrid A M gas).length →
        ∃ ca ce, IsLookup A s.lookups .ElectronTownsend i ca ∧
          IsLookup A s.lookups .ElectronAttachment i ce ∧
          s.townsendCoeffs[i]? = some (A.exp (M.value ca)) ∧
          s.attachmentCoeffs[i]? = some (A.exp (M.value ce)) := by
  obtain ⟨s, recs, hs, hlen, hb, -⟩ := retrieve_built A M gas fuel hfuel
  obtain ⟨k1, k2⟩ := main_links A M gas fuel hfuel s recs hs hlen hb
  refine ⟨s, hs, k1, k2, fun i hi => ?_⟩
  have hr : recs[i]? = some recs[i] := List.getElem?_eq_getElem (by omega)
  obtain ⟨-, -, ha, he, -, -⟩ := hb.values i _ hr
  obtain ⟨-, -, -, l4, l5⟩ := hb.isLookup i _ hr
  exact ⟨recs[i].c4, recs[i].c5, l4, l5, ha, he⟩

/-- C5: for every field-grid index `i < nE`, the entries `longitudinalDiffusions[i]` and
`transverseDiffusions[i]` are the values that the lookups
`GetElectronLongitudinalDiffusion(i, 0, 0, .)` and `GetElectronTransverseDiffusion(i, 0, 0, .)`
returned, and the field grid used for the output is the one `GetFieldGrid` returned: it is
`efields` of what `main` returns and the x array of every graph. The vectors are those of
the state `s` after the retrieval loop, which is the retrieval state of what `main`
returns. -/
theorem diffusions_unchanged {G D : Type} (A : Arith D) (M : MediumMagboltz G D) (gas : G)
    (fuel : Nat) (hfuel : (fieldGrid A M gas).length < fuel) :
    ∃ s, retrieve A M gas fuel = some ((fieldGrid A M gas).length, s) ∧
      (∀ out, main A M gas fuel = some out →
        out.retrieval = s ∧
        out.efields = (M.GetFieldGrid gas [] [A.zero] [A.ninety]).2.1 ∧
        ∀ im ∈ out.images, im.graph.x = out.efields) ∧
      (0 < (fieldGrid A M gas).length → ∃ out, main A M gas fuel = some out) ∧
      ∀ i, i < (fieldGrid A M gas).length →
        ∃ cl ct, IsLookup A s.lookups .ElectronLongitudinalDiffusion i cl ∧
          IsLookup A s.lookups .ElectronTransverseDiffusion i ct ∧
          s.longitudinalDiffusions[i]? = some (M.value cl) ∧
          s.transverseDiffusions[i]? = some (M.value ct) := by
  obtain ⟨s, recs, hs, hlen, hb, -⟩ := retrieve_built A M gas fuel hfuel
  obtain ⟨-, k2⟩ := main_links A M gas fuel hfuel s recs hs hlen hb
  refine ⟨s, hs, fun out h => ?_, k2, fun i hi => ?_⟩
  · rw [(main_out A M gas fuel hfuel s recs hs hlen hb out h).2]
    refine ⟨rfl, rfl, ?_⟩
    intro im hmem
    simp only [imagesOf, List.mem_cons, List.mem_singleton, List.not_mem_nil, or_false] at hmem
    rcases hmem with rfl | rfl | rfl | rfl | rfl <;> rfl
  · have hr : recs[i]? = some recs[i] := List.getElem?_eq_getElem (by omega)
    obtain ⟨-, -, -, -, hl, ht⟩ := hb.values i _ hr
    obtain ⟨-, l2, l3, -, -⟩ := hb.isLookup i _ hr
    exact ⟨recs[i].c2, recs[i].c3, l2, l3, hl, ht⟩

/-- C7: the lookups made are, in order, for `i = 0, 1, ..., nE - 1`, the five getters at
electric-field index `i`, magnetic-field index 0 and angle index 0; so there are `5 * nE`
of them, each pair of getter and index below `nE` occurs once, and no lookup has an
electric-field index `nE` or more. The record is the execution order: each lookup is run
on the gas object as the previous one left it. The record is that of the state `s` after
the retrieval loop, which is the retrieval state of what `main` returns. -/
theorem sweep_lookups {G D : Type} (A : Arith D) (M : MediumMagboltz G D) (gas : G)
    (fuel : Nat) (hfuel : (fieldGrid A M gas).length < fuel) :
    ∃ s, retrieve A M gas fuel = some ((fieldGrid A M gas).length, s) ∧
      (∀ out, main A M gas fuel = some out → out.retrieval = s) ∧
      (0 < (fieldGrid A M gas).length → ∃ out, main A M gas fuel = some out) ∧
      s.lookups.map Lookup.key
        = (List.range (fieldGrid A M gas).length).flatMap sweepKeys ∧
      s.lookups.length = 5 * (fieldGrid A M gas).length ∧
      (s.lookups.map Lookup.key).Nodup ∧
      (∀ c ∈ s.lookups, c.ie < (fieldGrid A M gas).length ∧ c.ib = 0 ∧ c.ia = 0) ∧
      Chained M (M.GetFieldGrid gas [] [A.zero] [A.ninety]).1 s.lookups s.gas := by
  obtain ⟨s, recs, hs, hlen, hb, hch⟩ := retrieve_built A M gas fuel hfuel
  obtain ⟨k1, k2⟩ := main_links A M gas fuel hfuel s recs hs hlen hb
  have hkeys : s.lookups.map Lookup.key
      = (List.range (fieldGrid A M gas).length).flatMap sweepKeys := by
    rw [hb.2.1, keys_flatMap A M (fieldGrid A M gas) recs 0
      (fun j r hj => by simpa using hb.1 j r hj), hlen, List.range_eq_range']
  have hmemkey : ∀ k ∈ (List.range (fieldGrid A M gas).length).flatMap sweepKeys,
      k.2.1 < (fieldGrid A M gas).length ∧ k.2.2.1 = 0 ∧ k.2.2.2 = 0 := by
    intro k hk
    rw [List.mem_flatMap] at hk
    obtain ⟨j, hj, hk⟩ := hk
    rw [List.mem_range] at hj
    simp only [sweepKeys, List.mem_cons, List.mem_singleton, List.not_mem_nil, or_false] at hk
    rcases hk with rfl | rfl | rfl | rfl | rfl <;> exact ⟨hj, rfl, rfl⟩
  refine ⟨s, hs, k1, k2, hkeys, ?_, ?_, ?_, hch⟩
  · have := congrArg List.length hkeys
    rw [List.length_map] at this
    rw [this]
    clear hkeys hmemkey k2
    induction (fieldGrid A M gas).length with
    | zero => rfl
    | succ n ih =>
      rw [List.range_succ, List.flatMap_append, List.length_append, ih]
      simp [sweepKeys]
      omega
  · rw [hkeys]
    clear hkeys hmemkey k2
    induction (fieldGrid A M gas).length with
    | zero => simp
    | succ n ih =>
      rw [List.range_succ, List.flatMap_append, List.nodup_append]
      refine ⟨ih, by simp [sweepKeys], ?_⟩
      intro k hk1 hk2
      rw [List.mem_flatMap] at hk1
      obtain ⟨j, hj, hk1⟩ := hk1
      rw [List.mem_range] at hj
      simp only [sweepKeys, List.flatMap_cons, List.flatMap_nil, List.append_nil,
        List.mem_cons, List.mem_singleton, List.not_mem_nil, or_false] at hk1 hk2
      rcases hk1 with rfl | rfl | rfl | rfl | rfl <;>
        rcases hk2 with h | h | h | h | h <;> simp at h <;> omega
  · intro c hc
    exact hmemkey c.key (by rw [← hkeys]; exact List.mem_map_of_mem _ hc)

/-- C8: for every grid size `nE`, zero included, the retrieval loop given more fuel than
`nE` returns with its counter at `nE`, and each of the five vectors then has exactly `nE`
entries, as has `efields`; the CSV loop run on these vectors returns with its counter at
`nE` (a loop returns only when no indexed read in its body was out of bounds), and every
read at an index below `nE` has a value. What `main` returns has this state and these
counters. -/
theorem vectors_sized {G D : Type} (A : Arith D) (M : MediumMagboltz G D) (gas : G)
    (fuel : Nat) (hfuel : (fieldGrid A M gas).length < fuel) :
    ∃ s csv, retrieve A M gas fuel = some ((fieldGrid A M gas).length, s) ∧
      s.driftVelocities.length = (fieldGrid A M gas).length ∧
      s.townsendCoeffs.length = (fieldGrid A M gas).length ∧
      s.attachmentCoeffs.length = (fieldGrid A M gas).length ∧
      s.longitudinalDiffusions.length = (fieldGrid A M gas).length ∧
      s.transverseDiffusions.length = (fieldGrid A M gas).length ∧
      writeCsv A (fieldGrid A M gas) s fuel = some ((fieldGrid A M gas).length, csv) ∧
      (∀ i, i < (fieldGrid A M gas).length →
        ((fieldGrid A M gas)[i]?).isSome ∧ (s.driftVelocities[i]?).isSome ∧
        (s.townsendCoeffs[i]?).isSome ∧ (s.attachmentCoeffs[i]?).isSome ∧
        (s.longitudinalDiffusions[i]?).isSome ∧ (s.transverseDiffusions[i]?).isSome) ∧
      (∀ out, main A M gas fuel = some out →
        out.efields = fieldGrid A M gas ∧ out.retrieval = s ∧
        out.retrievalCount = (fieldGrid A M gas).length ∧
        out.csvCount = (fieldGrid A M gas).length ∧ out.csv = csv) ∧
      (0 < (fieldGrid A M gas).length → ∃ out, main A M gas fuel = some out) := by
  obtain ⟨s, recs, hs, hlen, hb, -⟩ := retrieve_built A M gas fuel hfuel
  obtain ⟨-, k2⟩ := main_links A M gas fuel hfuel s recs hs hlen hb
  obtain ⟨l1, l2, l3, l4, l5⟩ := hb.lengths
  rw [hlen] at l1 l2 l3 l4 l5
  refine ⟨s, _, hs, l1, l2, l3, l4, l5,
    writeCsv_built A M (fieldGrid A M gas) recs s hlen hb fuel hfuel, fun i hi => ?_,
    fun out h => ?_, k2⟩
  · have hi2 : i < recs.length := by omega
    have hr : recs[i]? = some recs[i] := List.getElem?_eq_getElem hi2
    obtain ⟨h0, h1, h2, h3, h4, h5⟩ := hb.values i _ hr
    simp [h0, h1, h2, h3, h4, h5]
  · rw [(main_out A M gas fuel hfuel s recs hs hlen hb out h).2]
    exact ⟨rfl, rfl, rfl, rfl, rfl⟩

/-- C6 on a non-empty field grid: `main` saves exactly five images, `DriftVelocity.png`,
`TownsendCoefficient.png`, `AttachmentCoefficient.png`, `LongitudinalDiffusion.png` and
`TransverseDiffusion.png`, in that order and with pairwise distinct names; each graph is
built with the count `nE` and has exactly `nE` points, whose x-coordinates are `efields`
and whose y-coordinates are `driftVelocities`, `townsendCoeffs`, `attachmentCoeffs`,
`longitudinalDiffusions` and `transverseDiffusions` respectively. -/
theorem five_plots_of_nonempty {G D : Type} (A : Arith D) (M : MediumMagboltz G D) (gas : G)
    (fuel : Nat) (hfuel : (fieldGrid A M gas).length < fuel)
    (hpos : 0 < (fieldGrid A M gas).length) :
    ∃ out, main A M gas fuel = some out ∧
      out.images.map (fun im => im.file)
        = ["DriftVelocity.png", "TownsendCoefficient.png", "AttachmentCoefficient.png",
            "LongitudinalDiffusion.png", "TransverseDiffusion.png"] ∧
      (out.images.map (fun im => im.file)).Nodup ∧
      out.efields.length = (fieldGrid A M gas).length ∧
      (∀ im ∈ out.images, im.graph.n = (fieldGrid A M gas).length ∧
        ∃ pts, im.graph.points = some pts ∧ pts.length = (fieldGrid A M gas).length) ∧
      out.images.map (fun im => im.graph.points.map List.unzip)
        = [some (out.efields, out.retrieval.driftVelocities),
            some (out.efields, out.retrieval.townsendCoeffs),
            some (out.efields, out.retrieval.attachmentCoeffs),
            some (out.efields, out.retrieval.longitudinalDiffusions),
            some (out.efields, out.retrieval.transverseDiffusions)] := by
  obtain ⟨s, recs, hs, hlen, hb, -⟩ := retrieve_built A M gas fuel hfuel
  have hm := main_built A M gas fuel hfuel hpos s recs hs hlen hb
  obtain ⟨l1, l2, l3, l4, l5⟩ := hb.lengths
  rw [hlen] at l1 l2 l3 l4 l5
  have hp : ∀ (y : List D) (t : String) (c : Color) (w : Nat),
      y.length = (fieldGrid A M gas).length →
      (TGraph.points ⟨(fieldGrid A M gas).length, fieldGrid A M gas, y, t, c, w⟩)
        = some ((fieldGrid A M gas).zip y) :=
    fun y t c w hy => TGraph.points_full _ rfl hy
  have hnd : ["DriftVelocity.png", "TownsendCoefficient.png", "AttachmentCoefficient.png",
      "LongitudinalDiffusion.png", "TransverseDiffusion.png"].Nodup := by decide
  refine ⟨_, hm, rfl, hnd, rfl, ?_, ?_⟩
  · intro im hmem
    simp only [imagesOf, List.mem_cons, List.mem_singleton, List.not_mem_nil, or_false] at hmem
    rcases hmem with rfl | rfl | rfl | rfl | rfl
    · exact ⟨rfl, _, hp _ _ _ _ l1, by simp [l1]⟩
    · exact ⟨rfl, _, hp _ _ _ _ l2, by simp [l2]⟩
    · exact ⟨rfl, _, hp _ _ _ _ l3, by simp [l3]⟩
    · exact ⟨rfl, _, hp _ _ _ _ l4, by simp [l4]⟩
    · exact ⟨rfl, _, hp _ _ _ _ l5, by simp [l5]⟩
  · simp only [imagesOf, List.map_cons, List.map_nil, hp _ _ _ _ l1, hp _ _ _ _ l2,
      hp _ _ _ _ l3, hp _ _ _ _ l4, hp _ _ _ _ l5, Option.map_some',
      List.unzip_zip l1.symm, List.unzip_zip l2.symm, List.unzip_zip l3.symm,
      List.unzip_zip l4.symm, List.unzip_zip l5.symm]

/-- C3: the CSV text is the header line followed by exactly `nE` data lines (and nothing
after the last newline), in field-grid order; the header names six columns, in the order
E field, drift velocity, Townsend, attachment, longitudinal diffusion, transverse
diffusion; the data line `i` has exactly six comma-separated values, the formatted
`efields[i]`, `ve_i * 1.e3`, `exp(alpha_i)`, `exp(eta_i)`, `dl_i`, `dt_i` in this order, where
`ve_i`, `dl_i`, `dt_i`, `alpha_i`, `eta_i` are the values the five lookups at index `i`
returned. The text is what lines 126 to 131 write on the state `s` after the retrieval
loop, for every grid size; it is the CSV text of what `main` returns, and `main` returns
when the field grid is not empty. The text of a formatted double is assumed to contain no
newline and no comma. -/
theorem csv_layout {G D : Type} (A : Arith D) (M : MediumMagboltz G D) (gas : G)
    (fuel : Nat) (hfuel : (fieldGrid A M gas).length < fuel)
    (hfmt : ∀ d, '\n' ∉ A.fmt d ∧ ',' ∉ A.fmt d) :
    ∃ s csv, retrieve A M gas fuel = some ((fieldGrid A M gas).length, s) ∧
      writeCsv A (fieldGrid A M gas) s fuel = some ((fieldGrid A M gas).length, csv) ∧
      (∀ out, main A M gas fuel = some out → out.retrieval = s ∧ out.csv = csv) ∧
      (0 < (fieldGrid A M gas).length → ∃ out, main A M gas fuel = some out) ∧
      ∃ rows : List (List Char),
        csv.splitOn '\n' = csvHeader.dropLast :: rows ++ [[]] ∧
        rows.length = (fieldGrid A M gas).length ∧
        csvHeader.dropLast.splitOn ','
          = ["E_Field[V/cm]".toList, "Drift_Velocity[cm/us]".toList,
              "Townsend_Coeff[1/cm]".toList, "Attachment_Coeff[1/cm]".toList,
              "Longitudinal_Diffusion[√cm]".toList, "Transverse_Diffusion[√cm]".toList] ∧
        ∀ i, i < (fieldGrid A M gas).length →
          ∃ e cv cl ct ca ce,
            (fieldGrid A M gas)[i]? = some e ∧
            IsLookup A s.lookups .ElectronVelocityE i cv ∧
            IsLookup A s.lookups .ElectronLongitudinalDiffusion i cl ∧
            IsLookup A s.lookups .ElectronTransverseDiffusion i ct ∧
            IsLookup A s.lookups .ElectronTownsend i ca ∧
            IsLookup A s.lookups .ElectronAttachment i ce ∧
            (rows[i]?).map (fun row => row.splitOn ',')
              = some [A.fmt e, A.fmt (A.mul (M.value cv) A.e3), A.fmt (A.exp (M.value ca)),
                  A.fmt (A.exp (M.value ce)), A.fmt (M.value cl), A.fmt (M.value ct)] := by
  obtain ⟨s, recs, hs, hlen, hb, -⟩ := retrieve_built A M gas fuel hfuel
  obtain ⟨-, k2⟩ := main_links A M gas fuel hfuel s recs hs hlen hb
  have hw := writeCsv_built A M (fieldGrid A M gas) recs s hlen hb fuel hfuel
  have hlines := csv_lines A M recs (fun d => (hfmt d).1)
  have hout : ∀ out, main A M gas fuel = some out →
      out.retrieval = s ∧ out.csv = csvHeader ++ recs.flatMap
        (fun r => csvRow A r.e (r.ve A M) (r.alpha A M) (r.eta A M) (r.dl M) (r.dt M)) := by
    intro out h
    have := (main_out A M gas fuel hfuel s recs hs hlen hb out h).2
    subst this
    exact ⟨rfl, rfl⟩
  have hrows : ∀ i, i < (fieldGrid A M gas).length →
      ∃ e cv cl ct ca ce,
        (fieldGrid A M gas)[i]? = some e ∧
        IsLookup A s.lookups .ElectronVelocityE i cv ∧
        IsLookup A s.lookups .ElectronLongitudinalDiffusion i cl ∧
        IsLookup A s.lookups .ElectronTransverseDiffusion i ct ∧
        IsLookup A s.lookups .ElectronTownsend i ca ∧
        IsLookup A s.lookups .ElectronAttachment i ce ∧
        ((recs.map (fun r =>
          (csvRow A r.e (r.ve A M) (r.alpha A M) (r.eta A M) (r.dl M)
            (r.dt M)).dropLast))[i]?).map (fun row => row.splitOn ',')
          = some [A.fmt e, A.fmt (A.mul (M.value cv) A.e3), A.fmt (A.exp (M.value ca)),
              A.fmt (A.exp (M.value ce)), A.fmt (M.value cl), A.fmt (M.value ct)] := by
    intro i hi
    have hr : recs[i]? = some recs[i] := List.getElem?_eq_getElem (by omega)
    obtain ⟨l1, l2, l3, l4, l5⟩ := hb.isLookup i _ hr
    refine ⟨recs[i].e, recs[i].c1, recs[i].c2, recs[i].c3, recs[i].c4, recs[i].c5,
      (hb.values i _ hr).1, l1, l2, l3, l4, l5, ?_⟩
    rw [List.getElem?_map, hr]
    simp only [Option.map_some']
    rw [csvRow_fields A (fun d => (hfmt d).2)]
    rfl
  exact ⟨s, _, hs, hw, hout, k2, _, hlines, by rw [List.length_map, hlen],
    csvHeader_text.2.2, hrows⟩

/-- C10: for every field-grid index `i < nE`, `main` returns and there are six values, the
entries at `i` of `efields`, `driftVelocities`, `townsendCoeffs`, `attachmentCoeffs`,
`longitudinalDiffusions` and `transverseDiffusions`, such that line `i` of the console
output is the text of line 81 with these six values formatted in this order, data line `i`
of the CSV text (line `i + 1` after the header) is these six values formatted in the same
order and separated by commas, and point `i` of the five graphs pairs the field with the
five other values. The text of a formatted double is assumed to contain no newline. -/
theorem console_csv_plots_agree {G D : Type} (A : Arith D) (M : MediumMagboltz G D)
    (gas : G) (fuel : Nat) (hfuel : (fieldGrid A M gas).length < fuel)
    (hfmt : ∀ d, '\n' ∉ A.fmt d) (i : Nat) (hi : i < (fieldGrid A M gas).length) :
    ∃ out, main A M gas fuel = some out ∧
      ∃ e ve alpha eta dl dt : D,
        out.efields[i]? = some e ∧
        out.retrieval.driftVelocities[i]? = some ve ∧
        out.retrieval.townsendCoeffs[i]? = some alpha ∧
        out.retrieval.attachmentCoeffs[i]? = some eta ∧
        out.retrieval.longitudinalDiffusions[i]? = some dl ∧
        out.retrieval.transverseDiffusions[i]? = some dt ∧
        (out.retrieval.cout.splitOn '\n')[i]?
          = some ("E_Field: ".toList ++ A.fmt e ++ " V/cm, Drift_Velocity: ".toList
              ++ A.fmt ve ++ " cm/μs, Townsend_Coeff: ".toList ++ A.fmt alpha
              ++ " 1/cm, Attachment_Coeff: ".toList ++ A.fmt eta
              ++ " √cm, Longitudinal_Diffusion: ".toList ++ A.fmt dl
              ++ " √cm, Transverse_Diffusion: ".toList ++ A.fmt dt ++ " √cm".toList) ∧
        (out.csv.splitOn '\n')[i + 1]?
          = some (A.fmt e ++ ",".toList ++ A.fmt ve ++ ",".toList ++ A.fmt alpha
              ++ ",".toList ++ A.fmt eta ++ ",".toList ++ A.fmt dl ++ ",".toList
              ++ A.fmt dt) ∧
        out.images.map (fun im => im.graph.points.bind (fun pts => pts[i]?))
          = [some (e, ve), some (e, alpha), some (e, eta), some (e, dl), some (e, dt)] := by
  obtain ⟨s, recs, hs, hlen, hb, -⟩ := retrieve_built A M gas fuel hfuel
  have hm := main_built A M gas fuel hfuel (by omega) s recs hs hlen hb
  refine ⟨_, hm, ?_⟩
  have hi2 : i < recs.length := by omega
  have hr : recs[i]? = some recs[i] := List.getElem?_eq_getElem hi2
  obtain ⟨v0, v1, v2, v3, v4, v5⟩ := hb.values i _ hr
  obtain ⟨l1, l2, l3, l4, l5⟩ := hb.lengths
  rw [hlen] at l1 l2 l3 l4 l5
  have hp : ∀ (y : List D) (t : String) (c : Color) (w : Nat) (b : D),
      y.length = (fieldGrid A M gas).length → y[i]? = some b →
      (TGraph.points ⟨(fieldGrid A M gas).length, fieldGrid A M gas, y, t, c, w⟩).bind
        (fun pts => pts[i]?) = some (recs[i].e, b) := by
    intro y t c w b hy hb1
    rw [TGraph.points_full _ rfl hy, Option.some_bind]
    exact List.getElem?_zip_eq_some.2 ⟨v0, hb1⟩
  refine ⟨recs[i].e, recs[i].ve A M, recs[i].alpha A M, recs[i].eta A M, recs[i].dl M,
    recs[i].dt M, v0, v1, v2, v3, v4, v5, ?_, ?_, ?_⟩
  · rw [cout_lines hb hfmt, List.getElem?_append_left (by simpa using hi2),
      List.getElem?_map, hr, Option.map_some', consoleLine_dropLast]
  · show ((csvHeader ++ recs.flatMap
        (fun r => csvRow A r.e (r.ve A M) (r.alpha A M) (r.eta A M) (r.dl M)
          (r.dt M))).splitOn '\n')[i + 1]? = _
    rw [csv_lines A M recs hfmt, List.cons_append, List.getElem?_cons_succ,
      List.getElem?_append_left (by simpa using hi2), List.getElem?_map, hr,
      Option.map_some', csvRow_dropLast]
  · show (imagesOf (fieldGrid A M gas).length (fieldGrid A M gas) s.driftVelocities
        s.townsendCoeffs s.attachmentCoeffs s.longitudinalDiffusions
        s.transverseDiffusions).map (fun im => im.graph.points.bind (fun pts => pts[i]?)) = _
    simp only [imagesOf, List.map_cons, List.map_nil, hp _ _ _ _ _ l1 v1, hp _ _ _ _ _ l2 v2,
      hp _ _ _ _ _ l3 v3, hp _ _ _ _ _ l4 v4, hp _ _ _ _ _ l5 v5]

/-- C4, as amended: of the five outputs pulled per field point, three are transformed
before being stored for output (the drift velocity is multiplied by `1.e3`, the Townsend
and the attachment coefficient are exponentiated) and the remaining two (longitudinal and
transverse diffusion) are stored exactly as the library returned them. The vectors are
those of the state `s` after the retrieval loop, which is the retrieval state of what
`main` returns. -/
theorem three_transformed_two_unchanged {G D : Type} (A : Arith D) (M : MediumMagboltz G D)
    (gas : G) (fuel : Nat) (hfuel : (fieldGrid A M gas).length < fuel) :
    ∃ s, retrieve A M gas fuel = some ((fieldGrid A M gas).length, s) ∧
      (∀ out, main A M gas fuel = some out → out.retrieval = s) ∧
      (0 < (fieldGrid A M gas).length → ∃ out, main A M gas fuel = some out) ∧
      ∀ i, i < (fieldGrid A M gas).length →
        ∃ cv cl ct ca ce,
          IsLookup A s.lookups .ElectronVelocityE i cv ∧
          IsLookup A s.lookups .ElectronLongitudinalDiffusion i cl ∧
          IsLookup A s.lookups .ElectronTransverseDiffusion i ct ∧
          IsLookup A s.lookups .ElectronTownsend i ca ∧
          IsLookup A s.lookups .ElectronAttachment i ce ∧
          (s.stored .ElectronVelocityE)[i]? = some (A.mul (M.value cv) A.e3) ∧
          (s.stored .ElectronTownsend)[i]? = some (A.exp (M.value ca)) ∧
          (s.stored .ElectronAttachment)[i]? = some (A.exp (M.value ce)) ∧
          (s.stored .ElectronLongitudinalDiffusion)[i]? = some (M.value cl) ∧
          (s.stored .ElectronTransverseDiffusion)[i]? = some (M.value ct) := by
  obtain ⟨s, recs, hs, hlen, hb, -⟩ := retrieve_built A M gas fuel hfuel
  obtain ⟨k1, k2⟩ := main_links A M gas fuel hfuel s recs hs hlen hb
  refine ⟨s, hs, k1, k2, fun i hi => ?_⟩
  have hr : recs[i]? = some recs[i] := List.getElem?_eq_getElem (by omega)
  obtain ⟨-, v1, v2, v3, v4, v5⟩ := hb.values i _ hr
  obtain ⟨l1, l2, l3, l4, l5⟩ := hb.isLookup i _ hr
  exact ⟨recs[i].c1, recs[i].c2, recs[i].c3, recs[i].c4, recs[i].c5, l1, l2, l3, l4, l5,
    v1, v2, v3, v4, v5⟩

/-- C4 as stated fails: in the run on the sample table, at the field index 0 the library
returns 1 for the drift velocity and 0 for the logarithms of the Townsend and the
attachment coefficient, and `main` stores 1000, 1 and 1; three of the five outputs are
transformed, not two, and only two (the diffusions 3 and 5) are stored as returned. -/
theorem two_transformed_refuted :
    ∃ out, main ratArith tableMedium sampleTable 3 = some out ∧
      out.retrieval.returned tableMedium .ElectronVelocityE 0 = some 1 ∧
      (out.retrieval.stored .ElectronVelocityE)[0]? = some 1000 ∧
      out.retrieval.returned tableMedium .ElectronTownsend 0 = some 0 ∧
      (out.retrieval.stored .ElectronTownsend)[0]? = some 1 ∧
      out.retrieval.returned tableMedium .ElectronAttachment 0 = some 0 ∧
      (out.retrieval.stored .ElectronAttachment)[0]? = some 1 ∧
      out.retrieval.returned tableMedium .ElectronLongitudinalDiffusion 0 = some 3 ∧
      (out.retrieval.stored .ElectronLongitudinalDiffusion)[0]? = some 3 ∧
      out.retrieval.returned tableMedium .ElectronTransverseDiffusion 0 = some 5 ∧
      (out.retrieval.stored .ElectronTransverseDiffusion)[0]? = some 5 ∧
      out.retrieval.transformedAt tableMedium 0
        = [.ElectronVelocityE, .ElectronTownsend, .ElectronAttachment] ∧
      (out.retrieval.transformedAt tableMedium 0).length ≠ 2 := by
  refine ⟨_, rfl, ?_⟩
  simp [Retrieval.transformedAt, Retrieval.stored, Retrieval.returned, MediumMagboltz.run,
    tableMedium, Table.entry, sampleTable, ratArith, MediumMagboltz.value, expUnderflow,
    expTaylor, List.range_succ, List.filter]

/-- C1 at a concrete run, on the sample table, with fuel 3 for a grid of two points. -/
theorem driftVelocity_rescaled_witness :
    (fieldGrid ratArith tableMedium sampleTable).length < 3 ∧
    ratArith.mul ratArith.zero ratArith.e3 = ratArith.zero ∧
    (∃ s, retrieve ratArith tableMedium sampleTable 3 = some
        ((fieldGrid ratArith tableMedium sampleTable).length, s) ∧
        (∀ out, main ratArith tableMedium sampleTable 3 = some out → out.retrieval = s) ∧
        (0 < (fieldGrid ratArith tableMedium sampleTable).length → ∃ out,
            main ratArith tableMedium sampleTable 3 = some out) ∧
        ∀ i, i < (fieldGrid ratArith tableMedium sampleTable).length →
          ∃ c, IsLookup ratArith s.lookups .ElectronVelocityE i c ∧
            s.driftVelocities[i]? = some (ratArith.mul (tableMedium.value c) ratArith.e3) ∧
            (tableMedium.value c = ratArith.zero → s.driftVelocities[i]? = some ratArith.zero)) :=
  ⟨by decide, by simp [ratArith],
    driftVelocity_rescaled ratArith tableMedium sampleTable 3 (by decide) (by simp [ratArith])⟩

/-- C2 at a concrete run, on the sample table, with fuel 3 for a grid of two points. -/
theorem coefficients_exponentiated_witness :
    (fieldGrid ratArith tableMedium sampleTable).length < 3 ∧
    (∃ s, retrieve ratArith tableMedium sampleTable 3 = some
        ((fieldGrid ratArith tableMedium sampleTable).length, s) ∧
        (∀ out, main ratArith tableMedium sampleTable 3 = some out → out.retrieval = s) ∧
        (0 < (fieldGrid ratArith tableMedium sampleTable).length → ∃ out,
            main ratArith tableMedium sampleTable 3 = some out) ∧
        ∀ i, i < (fieldGrid ratArith tableMedium sampleTable).length →
          ∃ ca ce, IsLookup ratArith s.lookups .ElectronTownsend i ca ∧
            IsLookup ratArith s.lookups .ElectronAttachment i ce ∧
            s.townsendCoeffs[i]? = some (ratArith.exp (tableMedium.value ca)) ∧
            s.attachmentCoeffs[i]? = some (ratArith.exp (tableMedium.value ce))) :=
  ⟨by decide,
    coefficients_exponentiated ratArith tableMedium sampleTable 3 (by decide)⟩

/-- C3 at a concrete run, on the sample table, with fuel 3 for a grid of two points. -/
theorem csv_layout_witness :
    (fieldGrid ratArith tableMedium sampleTable).length < 3 ∧
    (∀ d, '\n' ∉ ratArith.fmt d ∧ ',' ∉ ratArith.fmt d) ∧
    (∃ s csv, retrieve ratArith tableMedium sampleTable 3 = some
        ((fieldGrid ratArith tableMedium sampleTable).length, s) ∧
        writeCsv ratArith (fieldGrid ratArith tableMedium sampleTable) s 3 = some
            ((fieldGrid ratArith tableMedium sampleTable).length, csv) ∧
        (∀ out, main ratArith tableMedium sampleTable 3 = some out → out.retrieval = s ∧ out.csv =
            csv) ∧
        (0 < (fieldGrid ratArith tableMedium sampleTable).length → ∃ out,
            main ratArith tableMedium sampleTable 3 = some out) ∧
        ∃ rows : List (List Char),
          csv.splitOn '\n' = csvHeader.dropLast :: rows ++ [[]] ∧
          rows.length = (fieldGrid ratArith tableMedium sampleTable).length ∧
          csvHeader.dropLast.splitOn ','
            = ["E_Field[V/cm]".toList, "Drift_Velocity[cm/us]".toList,
                "Townsend_Coeff[1/cm]".toList, "Attachment_Coeff[1/cm]".toList,
                "Longitudinal_Diffusion[√cm]".toList, "Transverse_Diffusion[√cm]".toList] ∧
          ∀ i, i < (fieldGrid ratArith tableMedium sampleTable).length →
            ∃ e cv cl ct ca ce,
              (fieldGrid ratArith tableMedium sampleTable)[i]? = some e ∧
              IsLookup ratArith s.lookups .ElectronVelocityE i cv ∧
              IsLookup ratArith s.lookups .ElectronLongitudinalDiffusion i cl ∧
              IsLookup ratArith s.lookups .ElectronTransverseDiffusion i ct ∧
              IsLookup ratArith s.lookups .ElectronTownsend i ca ∧
              IsLookup ratArith s.lookups .ElectronAttachment i ce ∧
              (rows[i]?).map (fun row => row.splitOn ',')
                = some [ratArith.fmt e, ratArith.fmt (ratArith.mul
                    (tableMedium.value cv) ratArith.e3), ratArith.fmt (ratArith.exp
                        (tableMedium.value ca)),
                    ratArith.fmt (ratArith.exp (tableMedium.value ce)), ratArith.fmt
                        (tableMedium.value cl), ratArith.fmt (tableMedium.value ct)]) :=
  ⟨by decide, fmtRat_clean,
    csv_layout ratArith tableMedium sampleTable 3 (by decide) (fmtRat_clean)⟩

/-- C4 at a concrete run, on the sample table, with fuel 3 for a grid of two points. -/
theorem three_transformed_two_unchanged_witness :
    (fieldGrid ratArith tableMedium sampleTable).length < 3 ∧
    (∃ s, retrieve ratArith tableMedium sampleTable 3 = some
        ((fieldGrid ratArith tableMedium sampleTable).length, s) ∧
        (∀ out, main ratArith tableMedium sampleTable 3 = some out → out.retrieval = s) ∧
        (0 < (fieldGrid ratArith tableMedium sampleTable).length → ∃ out,
            main ratArith tableMedium sampleTable 3 = some out) ∧
        ∀ i, i < (fieldGrid ratArith tableMedium sampleTable).length →
          ∃ cv cl ct ca ce,
            IsLookup ratArith s.lookups .ElectronVelocityE i cv ∧
            IsLookup ratArith s.lookups .ElectronLongitudinalDiffusion i cl ∧
            IsLookup ratArith s.lookups .ElectronTransverseDiffusion i ct ∧
            IsLookup ratArith s.lookups .ElectronTownsend i ca ∧
            IsLookup ratArith s.lookups .ElectronAttachment i ce ∧
            (s.stored .ElectronVelocityE)[i]? = some (ratArith.mul
                (tableMedium.value cv) ratArith.e3) ∧
            (s.stored .ElectronTownsend)[i]? = some (ratArith.exp (tableMedium.value ca)) ∧
            (s.stored .ElectronAttachment)[i]? = some (ratArith.exp (tableMedium.value ce)) ∧
            (s.stored .ElectronLongitudinalDiffusion)[i]? = some (tableMedium.value cl) ∧
            (s.stored .ElectronTransverseDiffusion)[i]? = some (tableMedium.value ct)) :=
  ⟨by decide,
    three_transformed_two_unchanged ratArith tableMedium sampleTable 3 (by decide)⟩

/-- C5 at a concrete run, on the sample table, with fuel 3 for a grid of two points. -/
theorem diffusions_unchanged_witness :
    (fieldGrid ratArith tableMedium sampleTable).length < 3 ∧
    (∃ s, retrieve ratArith tableMedium sampleTable 3 = some
        ((fieldGrid ratArith tableMedium sampleTable).length, s) ∧
        (∀ out, main ratArith tableMedium sampleTable 3 = some out →
          out.retrieval = s ∧
          out.efields =
              (tableMedium.GetFieldGrid sampleTable [] [ratArith.zero] [ratArith.ninety]).2.1 ∧
          ∀ im ∈ out.images, im.graph.x = out.efields) ∧
        (0 < (fieldGrid ratArith tableMedium sampleTable).length → ∃ out,
            main ratArith tableMedium sampleTable 3 = some out) ∧
        ∀ i, i < (fieldGrid ratArith tableMedium sampleTable).length →
          ∃ cl ct, IsLookup ratArith s.lookups .ElectronLongitudinalDiffusion i cl ∧
            IsLookup ratArith s.lookups .ElectronTransverseDiffusion i ct ∧
            s.longitudinalDiffusions[i]? = some (tableMedium.value cl) ∧
            s.transverseDiffusions[i]? = some (tableMedium.value ct)) :=
  ⟨by decide,
    diffusions_unchanged ratArith tableMedium sampleTable 3 (by decide)⟩

/-- C6 on a non-empty field grid at a concrete run, on the sample table, with fuel 3 for a
grid of two points. -/
theorem five_plots_of_nonempty_witness :
    (fieldGrid ratArith tableMedium sampleTable).length < 3 ∧
    0 < (fieldGrid ratArith tableMedium sampleTable).length ∧
    (∃ out, main ratArith tableMedium sampleTable 3 = some out ∧
        out.images.map (fun im => im.file)
          = ["DriftVelocity.png", "TownsendCoefficient.png", "AttachmentCoefficient.png",
              "LongitudinalDiffusion.png", "TransverseDiffusion.png"] ∧
        (out.images.map (fun im => im.file)).Nodup ∧
        out.efields.length = (fieldGrid ratArith tableMedium sampleTable).length ∧
        (∀ im ∈ out.images, im.graph.n = (fieldGrid ratArith tableMedium sampleTable).length ∧
          ∃ pts, im.graph.points = some pts ∧ pts.length =
              (fieldGrid ratArith tableMedium sampleTable).length) ∧
        out.images.map (fun im => im.graph.points.map List.unzip)
          = [some (out.efields, out.retrieval.driftVelocities),
              some (out.efields, out.retrieval.townsendCoeffs),
              some (out.efields, out.retrieval.attachmentCoeffs),
              some (out.efields, out.retrieval.longitudinalDiffusions),
              some (out.efields, out.retrieval.transverseDiffusions)]) :=
  ⟨by decide, by decide,
    five_plots_of_nonempty ratArith tableMedium sampleTable 3 (by decide) (by decide)⟩

/-- C7 at a concrete run, on the sample table, with fuel 3 for a grid of two points. -/
theorem sweep_lookups_witness :
    (fieldGrid ratArith tableMedium sampleTable).length < 3 ∧
    (∃ s, retrieve ratArith tableMedium sampleTable 3 = some
        ((fieldGrid ratArith tableMedium sampleTable).length, s) ∧
        (∀ out, main ratArith tableMedium sampleTable 3 = some out → out.retrieval = s) ∧
        (0 < (fieldGrid ratArith tableMedium sampleTable).length → ∃ out,
            main ratArith tableMedium sampleTable 3 = some out) ∧
        s.lookups.map Lookup.key
          = (List.range (fieldGrid ratArith tableMedium sampleTable).length).flatMap sweepKeys ∧
        s.lookups.length = 5 * (fieldGrid ratArith tableMedium sampleTable).length ∧
        (s.lookups.map Lookup.key).Nodup ∧
        (∀ c ∈ s.lookups, c.ie < (fieldGrid ratArith tableMedium sampleTable).length ∧ c.ib = 0 ∧
            c.ia = 0) ∧
        Chained tableMedium
          (tableMedium.GetFieldGrid sampleTable [] [ratArith.zero] [ratArith.ninety]).1
          s.lookups s.gas) :=
  ⟨by decide,
    sweep_lookups ratArith tableMedium sampleTable 3 (by decide)⟩

/-- C8 at two concrete runs: on the sample table, with fuel 3 for a grid of two points, and
on the empty table, where the grid has no point and one test of each loop condition is
enough. -/
theorem vectors_sized_witness :
    ((fieldGrid ratArith tableMedium sampleTable).length < 3 ∧
     (∃ s csv, retrieve ratArith tableMedium sampleTable 3 = some
         ((fieldGrid ratArith tableMedium sampleTable).length, s) ∧
         s.driftVelocities.length = (fieldGrid ratArith tableMedium sampleTable).length ∧
         s.townsendCoeffs.length = (fieldGrid ratArith tableMedium sampleTable).length ∧
         s.attachmentCoeffs.length = (fieldGrid ratArith tableMedium sampleTable).length ∧
         s.longitudinalDiffusions.length = (fieldGrid ratArith tableMedium sampleTable).length ∧
         s.transverseDiffusions.length = (fieldGrid ratArith tableMedium sampleTable).length ∧
         writeCsv ratArith (fieldGrid ratArith tableMedium sampleTable) s 3 = some
             ((fieldGrid ratArith tableMedium sampleTable).length, csv) ∧
         (∀ i, i < (fieldGrid ratArith tableMedium sampleTable).length →
           ((fieldGrid ratArith tableMedium sampleTable)[i]?).isSome ∧
               (s.driftVelocities[i]?).isSome ∧
           (s.townsendCoeffs[i]?).isSome ∧ (s.attachmentCoeffs[i]?).isSome ∧
           (s.longitudinalDiffusions[i]?).isSome ∧ (s.transverseDiffusions[i]?).isSome) ∧
         (∀ out, main ratArith tableMedium sampleTable 3 = some out →
           out.efields = fieldGrid ratArith tableMedium sampleTable ∧ out.retrieval = s ∧
           out.retrievalCount = (fieldGrid ratArith tableMedium sampleTable).length ∧
           out.csvCount = (fieldGrid ratArith tableMedium sampleTable).length ∧ out.csv = csv) ∧
         (0 < (fieldGrid ratArith tableMedium sampleTable).length → ∃ out,
             main ratArith tableMedium sampleTable 3 = some out))) ∧
    ((fieldGrid ratArith tableMedium emptyTable).length < 1 ∧
     (∃ s csv, retrieve ratArith tableMedium emptyTable 1 = some
         ((fieldGrid ratArith tableMedium emptyTable).length, s) ∧
         s.driftVelocities.length = (fieldGrid ratArith tableMedium emptyTable).length ∧
         s.townsendCoeffs.length = (fieldGrid ratArith tableMedium emptyTable).length ∧
         s.attachmentCoeffs.length = (fieldGrid ratArith tableMedium emptyTable).length ∧
         s.longitudinalDiffusions.length = (fieldGrid ratArith tableMedium emptyTable).length ∧
         s.transverseDiffusions.length = (fieldGrid ratArith tableMedium emptyTable).length ∧
         writeCsv ratArith (fieldGrid ratArith tableMedium emptyTable) s 1 = some
             ((fieldGrid ratArith tableMedium emptyTable).length, csv) ∧
         (∀ i, i < (fieldGrid ratArith tableMedium emptyTable).length →
           ((fieldGrid ratArith tableMedium emptyTable)[i]?).isSome ∧
               (s.driftVelocities[i]?).isSome ∧
           (s.townsendCoeffs[i]?).isSome ∧ (s.attachmentCoeffs[i]?).isSome ∧
           (s.longitudinalDiffusions[i]?).isSome ∧ (s.transverseDiffusions[i]?).isSome) ∧
         (∀ out, main ratArith tableMedium emptyTable 1 = some out →
           out.efields = fieldGrid ratArith tableMedium emptyTable ∧ out.retrieval = s ∧
           out.retrievalCount = (fieldGrid ratArith tableMedium emptyTable).length ∧
           out.csvCount = (fieldGrid ratArith tableMedium emptyTable).length ∧ out.csv = csv) ∧
         (0 < (fieldGrid ratArith tableMedium emptyTable).length → ∃ out,
             main ratArith tableMedium emptyTable 1 = some out))) :=
  ⟨⟨by decide,
    vectors_sized ratArith tableMedium sampleTable 3 (by decide)⟩,
    ⟨by decide,
      vectors_sized ratArith tableMedium emptyTable 1 (by decide)⟩⟩

/-- C10 at a concrete run, on the sample table, with fuel 3 for a grid of two points, at the
index 1. -/
theorem console_csv_plots_agree_witness :
    (fieldGrid ratArith tableMedium sampleTable).length < 3 ∧
    (∀ d, '\n' ∉ ratArith.fmt d) ∧
    1 < (fieldGrid ratArith tableMedium sampleTable).length ∧
    (∃ out, main ratArith tableMedium sampleTable 3 = some out ∧
        ∃ e ve alpha eta dl dt : ℚ,
          out.efields[1]? = some e ∧
          out.retrieval.driftVelocities[1]? = some ve ∧
          out.retrieval.townsendCoeffs[1]? = some alpha ∧
          out.retrieval.attachmentCoeffs[1]? = some eta ∧
          out.retrieval.longitudinalDiffusions[1]? = some dl ∧
          out.retrieval.transverseDiffusions[1]? = some dt ∧
          (out.retrieval.cout.splitOn '\n')[1]?
            = some ("E_Field: ".toList ++ ratArith.fmt e ++ " V/cm, Drift_Velocity: ".toList
                ++ ratArith.fmt ve ++ " cm/μs, Townsend_Coeff: ".toList ++ ratArith.fmt alpha
                ++ " 1/cm, Attachment_Coeff: ".toList ++ ratArith.fmt eta
                ++ " √cm, Longitudinal_Diffusion: ".toList ++ ratArith.fmt dl
                ++ " √cm, Transverse_Diffusion: ".toList ++ ratArith.fmt dt ++ " √cm".toList) ∧
          (out.csv.splitOn '\n')[1 + 1]?
            = some (ratArith.fmt e ++ ",".toList ++ ratArith.fmt ve ++ ",".toList
                ++ ratArith.fmt alpha ++ ",".toList ++ ratArith.fmt eta ++ ",".toList
                ++ ratArith.fmt dl ++ ",".toList ++ ratArith.fmt dt) ∧
          out.images.map (fun im => im.graph.points.bind (fun pts => pts[1]?))
            = [some (e, ve), some (e, alpha), some (e, eta), some (e, dl), some (e, dt)]) :=
  ⟨by decide, fun d => (fmtRat_clean d).1, by decide,
    console_csv_plots_agree ratArith tableMedium sampleTable 3 (by decide) (fun d =>
        (fmtRat_clean d).1) 1 (by decide)⟩

end Weight
